import Mathlib

/-!
# Bitbucket Cloud adapter (`pkg/webvcs/bitbucketcloud/bitbucket.go`)

A shallow embedding of the adapter.  Go `string` is `String`.  The remote
client is a record of response functions, one per endpoint the adapter
calls; every operation returns its Go result together with the list of the
remote calls it issued, in order.  A method call through a nil `*Client`
is the outcome `nilDeref`.  A method returning `(string, error)` also
records the string of the pair it returned.
-/

set_option linter.dupNamespace false

namespace Bitbucketcloud

/-! ## Go library pieces used by the adapter -/

/-- Go error value, carrying its message (`Error()`). -/
structure GoError where
  msg : String
  deriving DecidableEq, Repr

/-- Go `fmt.Errorf` once the format verbs have been substituted. -/
def Errorf (msg : String) : GoError := ⟨msg⟩

/-- Go `strings.HasSuffix`. -/
def HasSuffix (s suffix : String) : Bool := suffix.data.isSuffixOf s.data

/-- Go `strings.HasPrefix`. -/
def HasPrefix (s pre : String) : Bool := pre.data.isPrefixOf s.data

/-- Go `strings.Contains`, as a proposition. -/
def Contains (s sub : String) : Prop := ∃ pre post : String, s = pre ++ sub ++ post

/-- Outcome of a Go call: a value, a returned `error`, or a nil-pointer
dereference (run-time crash). -/
inductive Outcome (α : Type) where
  | ok (a : α)
  | err (e : GoError)
  | nilDeref
  deriving DecidableEq, Repr

/-! ## Data model -/

/-- Type `types.PullRequest`: the field the adapter reads. -/
structure PullRequest where
  ID : Int
  deriving DecidableEq, Repr

/-- Type `types.PullRequestEvent`. -/
structure PullRequestEvent where
  PullRequest : PullRequest
  deriving DecidableEq, Repr

/-- Dynamic content of `info.Event.Event` (`interface{}`): a
`*types.PullRequestEvent` (possibly a nil pointer) or a value of another
type. -/
inductive EventPayload where
  | pullRequestEvent (p : Option PullRequestEvent)
  | other
  deriving DecidableEq, Repr

/-- Type `info.Event`: the fields the adapter reads or writes. -/
structure Event where
  Owner : String
  Repository : String
  SHA : String
  SHATitle : String
  SHAURL : String
  HeadBranch : String
  DefaultBranch : String
  EventType : String
  Event : EventPayload
  deriving DecidableEq, Repr

/-- Type `info.PacOpts`: the fields the adapter reads. -/
structure PacOpts where
  ApplicationName : String
  VCSAPIURL : String
  VCSUser : String
  VCSToken : String
  deriving DecidableEq, Repr

/-- Type `webvcs.StatusOpts`: the fields the adapter reads or writes. -/
structure StatusOpts where
  Status : String
  Title : String
  Conclusion : String
  Text : String
  DetailsURL : String
  deriving DecidableEq, Repr

/-- Type `bitbucket.CommitStatusOptions`. -/
structure CommitStatusOptions where
  Key : String
  Url : String
  State : String
  Description : String
  deriving DecidableEq, Repr

/-- Type `bitbucket.CommitsOptions`; a field not set by the caller is `""`. -/
structure CommitsOptions where
  Owner : String
  RepoSlug : String
  Revision : String
  Branchortag : String
  deriving DecidableEq, Repr

/-- Type `bitbucket.PullRequestCommentOptions`. -/
structure PullRequestCommentOptions where
  Owner : String
  RepoSlug : String
  PullRequestID : String
  Content : String
  deriving DecidableEq, Repr

/-- Type `bitbucket.RepositoryFilesOptions`. -/
structure RepositoryFilesOptions where
  Owner : String
  RepoSlug : String
  Ref : String
  Path : String
  deriving DecidableEq, Repr

/-- Type `bitbucket.RepositoryBlobOptions`. -/
structure RepositoryBlobOptions where
  Owner : String
  RepoSlug : String
  Ref : String
  Path : String
  deriving DecidableEq, Repr

/-- Type `bitbucket.RepositoryOptions`. -/
structure RepositoryOptions where
  Owner : String
  RepoSlug : String
  deriving DecidableEq, Repr

/-- Type `bitbucket.RepositoryFile`: the field the adapter reads. -/
structure RepositoryFile where
  Path : String
  deriving DecidableEq, Repr

/-- Type `bitbucket.RepositoryBlob`; `String` is its `String()` method. -/
structure RepositoryBlob where
  Content : String
  deriving DecidableEq, Repr

/-- Method `(*RepositoryBlob).String`. -/
def RepositoryBlob.String (b : RepositoryBlob) : String := b.Content

/-- Type `bitbucket.RepositoryBranch`. -/
structure RepositoryBranch where
  Name : String
  deriving DecidableEq, Repr

/-- Type `bitbucket.Repository`: the field the adapter reads. -/
structure Repository where
  Mainbranch : RepositoryBranch
  deriving DecidableEq, Repr

/-- Type `types.Commit`, with `Links.HTML.HRef` flattened to `HRef`. -/
structure Commit where
  Hash : String
  Message : String
  HRef : String
  deriving DecidableEq, Repr

/-- Loosely typed value (`interface{}`) as returned by `GetCommits`. -/
inductive Value where
  | null
  | str (s : String)
  | num (n : Int)
  | bool (b : Bool)
  | arr (vs : List Value)
  | obj (kvs : List (String × Value))

/-- Remote call issued through the client. -/
inductive Call where
  | CreateCommitStatus (cmo : CommitsOptions) (cso : CommitStatusOptions)
  | AddComment (o : PullRequestCommentOptions)
  | ListFiles (o : RepositoryFilesOptions)
  | GetFileBlob (o : RepositoryBlobOptions)
  | GetCommits (o : CommitsOptions)
  | Get (o : RepositoryOptions)
  deriving DecidableEq, Repr

/-- Type `bitbucket.Client`: what each endpoint answers to a request. -/
structure Client where
  CreateCommitStatus : CommitsOptions → CommitStatusOptions → Except GoError Unit
  AddComment : PullRequestCommentOptions → Except GoError Unit
  ListFiles : RepositoryFilesOptions → Except GoError (List RepositoryFile)
  GetFileBlob : RepositoryBlobOptions → Except GoError RepositoryBlob
  GetCommits : CommitsOptions → Except GoError Value
  Get : RepositoryOptions → Except GoError Repository

/-- Type `VCS`; a nil pointer is `none`. -/
structure VCS where
  Client : Option Client
  Token : Option String
  APIURL : Option String
  Username : Option String

/-- Result of an operation and the remote calls it issued, in order. -/
structure Run (α : Type) where
  result : Outcome α
  calls : List Call

/-- Result of a method returning `(string, error)`: the outcome, the remote
calls issued, in order, and the string of the returned pair (`none` when
the call crashed before returning). -/
structure StringRun where
  result : Outcome String
  calls : List Call
  returned : Option String

/-! ## The adapter -/

/-- The `switch statusopts.Conclusion` of `CreateStatus`. -/
def translate (statusopts : StatusOpts) : StatusOpts :=
  if statusopts.Conclusion = "skipped" then
    { statusopts with Conclusion := "STOPPED", Title := "➖ Skipping this commit" }
  else if statusopts.Conclusion = "neutral" then
    { statusopts with Conclusion := "STOPPED", Title := "➖ CI has stopped" }
  else if statusopts.Conclusion = "failure" then
    { statusopts with Conclusion := "FAILED", Title := "❌ Failed" }
  else if statusopts.Conclusion = "pending" then
    { statusopts with Conclusion := "INPROGRESS", Title := "⚡ CI has started" }
  else if statusopts.Conclusion = "success" then
    { statusopts with Conclusion := "SUCCESSFUL", Title := "✅ Commit has been validated" }
  else if statusopts.Conclusion = "completed" then
    { statusopts with Conclusion := "SUCCESSFUL", Title := "✅ Completed" }
  else statusopts

/-- Go `fmt.Sprintf("%d", n)`. -/
def SprintfD (n : Int) : String := toString n

/-- Method `getPullRequestNumber`. -/
def getPullRequestNumber (eventPayload : EventPayload) : Outcome String :=
  match eventPayload with
  | .other => .err (Errorf "cannot convert event to PullRequestEvent")
  | .pullRequestEvent none => .nilDeref
  | .pullRequestEvent (some prevent) =>
    let prID := prevent.PullRequest.ID
    if prID = 0 then .err (Errorf "could not detect pull request ID")
    else .ok (SprintfD prID)

/-- Method `CreateStatus`. -/
def CreateStatus (v : VCS) (event : Event) (pacopts : PacOpts)
    (statusopts : StatusOpts) : Run Unit :=
  let statusopts := translate statusopts
  let detailsURL := if statusopts.DetailsURL ≠ "" then statusopts.DetailsURL else pacopts.VCSAPIURL
  let cso : CommitStatusOptions :=
    { Key := pacopts.ApplicationName, Url := detailsURL,
      State := statusopts.Conclusion, Description := statusopts.Title }
  let cmo : CommitsOptions :=
    { Owner := event.Owner, RepoSlug := event.Repository, Revision := event.SHA,
      Branchortag := "" }
  match v.Client with
  | none => ⟨.err (Errorf "no token has been set, cannot set status"), []⟩
  | some c =>
    match c.CreateCommitStatus cmo cso with
    | .error err => ⟨.err err, [.CreateCommitStatus cmo cso]⟩
    | .ok _ =>
      if statusopts.Conclusion ≠ "STOPPED" ∧ statusopts.Status = "completed" ∧
          statusopts.Text ≠ "" ∧ event.EventType = "pull_request" then
        match getPullRequestNumber event.Event with
        | .nilDeref => ⟨.nilDeref, [.CreateCommitStatus cmo cso]⟩
        | .err err => ⟨.err err, [.CreateCommitStatus cmo cso]⟩
        | .ok prNumber =>
          let o : PullRequestCommentOptions :=
            { Owner := event.Owner, RepoSlug := event.Repository, PullRequestID := prNumber,
              Content := "**" ++ pacopts.ApplicationName ++ "** - " ++ statusopts.Title ++
                "\n\n" ++ statusopts.Text }
          match c.AddComment o with
          | .error err => ⟨.err err, [.CreateCommitStatus cmo cso, .AddComment o]⟩
          | .ok _ => ⟨.ok (), [.CreateCommitStatus cmo cso, .AddComment o]⟩
      else ⟨.ok (), [.CreateCommitStatus cmo cso]⟩

/-- Method `getBlob`. -/
def getBlob (v : VCS) (runevent : Event) (ref path : String) : StringRun :=
  let o : RepositoryBlobOptions :=
    { Owner := runevent.Owner, RepoSlug := runevent.Repository, Ref := ref, Path := path }
  match v.Client with
  | none => ⟨.nilDeref, [], none⟩
  | some c =>
    match c.GetFileBlob o with
    | .error _ =>
      ⟨.err (Errorf ("cannot find " ++ path ++ " on branch " ++ ref ++ " in repo " ++
        runevent.Owner ++ "/" ++ runevent.Repository)), [.GetFileBlob o], some ""⟩
    | .ok blob => ⟨.ok blob.String, [.GetFileBlob o], some blob.String⟩

/-- The `for _, value := range objects` loop of `concatAllYamlFiles`, from the
current `allTemplates` and the calls issued so far. -/
def concatLoop (v : VCS) (runevent : Event) :
    List RepositoryFile → String → List Call → StringRun
  | [], allTemplates, log => ⟨.ok allTemplates, log, some allTemplates⟩
  | value :: rest, allTemplates, log =>
    if HasSuffix value.Path ".yaml" || HasSuffix value.Path ".yml" then
      match getBlob v runevent runevent.HeadBranch value.Path with
      | ⟨.nilDeref, cs, _⟩ => ⟨.nilDeref, log ++ cs, none⟩
      | ⟨.err err, cs, _⟩ => ⟨.err err, log ++ cs, some ""⟩
      | ⟨.ok data, cs, _⟩ =>
        let allTemplates :=
          if allTemplates ≠ "" ∧ ¬ HasPrefix data "---" then allTemplates ++ "---"
          else allTemplates
        concatLoop v runevent rest (allTemplates ++ ("\n" ++ data ++ "\n")) (log ++ cs)
    else concatLoop v runevent rest allTemplates log

/-- Method `concatAllYamlFiles`. -/
def concatAllYamlFiles (v : VCS) (objects : List RepositoryFile) (runevent : Event) :
    StringRun :=
  concatLoop v runevent objects "" []

/-- Method `GetTektonDir`. -/
def GetTektonDir (v : VCS) (event : Event) (path : String) : StringRun :=
  let repoFileOpts : RepositoryFilesOptions :=
    { Owner := event.Owner, RepoSlug := event.Repository, Ref := event.SHA, Path := path }
  match v.Client with
  | none => ⟨.nilDeref, [], none⟩
  | some c =>
    match c.ListFiles repoFileOpts with
    | .error err => ⟨.err err, [.ListFiles repoFileOpts], some ""⟩
    | .ok repositoryFiles =>
      let r := concatAllYamlFiles v repositoryFiles event
      ⟨r.result, .ListFiles repoFileOpts :: r.calls, r.returned⟩

/-- Method `GetFileInsideRepo`. -/
def GetFileInsideRepo (v : VCS) (runevent : Event) (path targetBranch : String) :
    StringRun :=
  let branch := if targetBranch ≠ "" then targetBranch else runevent.HeadBranch
  getBlob v runevent branch path

/-- Method `SetClient`; `NewBasicAuth` is `bitbucket.NewBasicAuth`.  Returns
the adapter afterwards and the returned `error` (`none` is nil). -/
def SetClient (NewBasicAuth : String → String → Client) (v : VCS) (opts : PacOpts) :
    VCS × Option GoError :=
  if opts.VCSUser = "" then
    (v, some (Errorf "no webvcs_api_user has been set in the repo crd"))
  else if opts.VCSToken = "" then
    (v, some (Errorf "no webvcs_api_api_secret has been set in the repo crd"))
  else
    ({ v with Client := some (NewBasicAuth opts.VCSUser opts.VCSToken),
              Token := some opts.VCSToken, Username := some opts.VCSUser }, none)

/-- Type assertion `response.(map[string]interface{})`. -/
def Value.asMap : Value → Option (List (String × Value))
  | .obj kvs => some kvs
  | _ => none

/-- Expression `commitMap["values"].([]interface{})`: a missing key reads as
nil, for which the assertion fails. -/
def valuesOf (commitMap : List (String × Value)) : Option (List Value) :=
  match commitMap.lookup "values" with
  | some (.arr vs) => some vs
  | _ => none

/-- Method `GetCommitInfo`; `Decode` is `mapstructure.Decode` into a
`types.Commit`.  Returns the event afterwards with the run. -/
def GetCommitInfo (Decode : Value → Except GoError Commit) (v : VCS) (event : Event) :
    Event × Run Unit :=
  let co : CommitsOptions :=
    { Owner := event.Owner, RepoSlug := event.Repository, Revision := "",
      Branchortag := event.SHA }
  match v.Client with
  | none => (event, ⟨.nilDeref, []⟩)
  | some c =>
    match c.GetCommits co with
    | .error err => (event, ⟨.err err, [.GetCommits co]⟩)
    | .ok response =>
      match response.asMap with
      | none => (event, ⟨.err (Errorf "cannot convert"), [.GetCommits co]⟩)
      | some commitMap =>
        match valuesOf commitMap with
        | none => (event, ⟨.err (Errorf "cannot convert"), [.GetCommits co]⟩)
        | some [] =>
          (event, ⟨.err (Errorf ("we did not get commit information from commit: " ++
            event.SHA)), [.GetCommits co]⟩)
        | some (first :: _) =>
          match Decode first with
          | .error err => (event, ⟨.err err, [.GetCommits co]⟩)
          | .ok commitinfo =>
            let event := { event with SHATitle := commitinfo.Message, SHAURL := commitinfo.HRef,
                                      SHA := commitinfo.Hash }
            let ro : RepositoryOptions := { Owner := event.Owner, RepoSlug := event.Repository }
            match c.Get ro with
            | .error err => (event, ⟨.err err, [.GetCommits co, .Get ro]⟩)
            | .ok repo =>
              ({ event with DefaultBranch := repo.Mainbranch.Name },
                ⟨.ok (), [.GetCommits co, .Get ro]⟩)

/-! ## Specification vocabulary -/

/-- Commit statuses posted by a run, in order. -/
def postedStatuses (calls : List Call) : List CommitStatusOptions :=
  calls.filterMap fun call =>
    match call with
    | .CreateCommitStatus _ cso => some cso
    | _ => none

/-- Pull-request comments posted by a run, in order. -/
def postedComments (calls : List Call) : List PullRequestCommentOptions :=
  calls.filterMap fun call =>
    match call with
    | .AddComment o => some o
    | _ => none

/-- Blob fetches issued by a run, in order. -/
def blobFetches (calls : List Call) : List RepositoryBlobOptions :=
  calls.filterMap fun call =>
    match call with
    | .GetFileBlob o => some o
    | _ => none

/-- The details link of `CreateStatus` (source lines 55-58). -/
def detailsURLOf (pacopts : PacOpts) (statusopts : StatusOpts) : String :=
  if statusopts.DetailsURL ≠ "" then statusopts.DetailsURL else pacopts.VCSAPIURL

/-- The `cso` value built by `CreateStatus` (source lines 60-65). -/
def csoOf (pacopts : PacOpts) (statusopts : StatusOpts) : CommitStatusOptions :=
  { Key := pacopts.ApplicationName, Url := detailsURLOf pacopts (translate statusopts),
    State := (translate statusopts).Conclusion, Description := (translate statusopts).Title }

/-- The `cmo` value built by `CreateStatus` (source lines 66-70). -/
def cmoOf (event : Event) : CommitsOptions :=
  { Owner := event.Owner, RepoSlug := event.Repository, Revision := event.SHA,
    Branchortag := "" }

/-- The (State, Description) pairs of the commit statuses posted by a run. -/
def postedStatePairs (calls : List Call) : List (String × String) :=
  (postedStatuses calls).map fun cso => (cso.State, cso.Description)

/-- Whether a listing entry is a YAML candidate: the test of source lines
187-188. -/
def isYAMLCandidate (f : RepositoryFile) : Bool :=
  HasSuffix f.Path ".yaml" || HasSuffix f.Path ".yml"

/-- The accumulation of source lines 194-197 over the fetched documents, from
the current `allTemplates`. -/
def accumulate : String → List String → String
  | allTemplates, [] => allTemplates
  | allTemplates, data :: rest =>
    accumulate
      ((if allTemplates ≠ "" ∧ ¬ HasPrefix data "---" then allTemplates ++ "---"
        else allTemplates) ++ ("\n" ++ data ++ "\n")) rest

/-- Bundle text of the documents after the first: each is preceded by the
separator `---` unless it already begins with it, then written between two
newlines. -/
def bundleRest : List String → String
  | [] => ""
  | d :: ds => (if HasPrefix d "---" then "" else "---") ++ ("\n" ++ d ++ "\n") ++ bundleRest ds

/-- Bundle text of a list of documents: the first is written between two
newlines with no separator, the others as in `bundleRest`. -/
def bundle : List String → String
  | [] => ""
  | d :: ds => ("\n" ++ d ++ "\n") ++ bundleRest ds

/-- The blob request `getBlob` builds for a path at the event's head branch. -/
def headBlobOptions (runevent : Event) (path : String) : RepositoryBlobOptions :=
  { Owner := runevent.Owner, RepoSlug := runevent.Repository, Ref := runevent.HeadBranch,
    Path := path }

/-- Content the client serves for a path at the event's head branch (`""` when
the fetch fails). -/
def contentAt (c : Client) (runevent : Event) (path : String) : String :=
  match c.GetFileBlob (headBlobOptions runevent path) with
  | .ok blob => blob.String
  | .error _ => ""

/-- The message of the error `getBlob` returns when the fetch fails (source
line 211). -/
def notFoundMessage (path ref owner repository : String) : String :=
  "cannot find " ++ path ++ " on branch " ++ ref ++ " in repo " ++ owner ++ "/" ++ repository

/-- The reference `GetFileInsideRepo` fetches at (source lines 120-123). -/
def branchOf (runevent : Event) (targetBranch : String) : String :=
  if targetBranch ≠ "" then targetBranch else runevent.HeadBranch

/-! ## Concrete inputs -/

/-- A client that lists `files` for every directory and serves the blob
`blobs path`, failing with a 404 where that is `none`; the other endpoints
succeed. -/
def fakeClient (files : List RepositoryFile) (blobs : String → Option String) : Client where
  CreateCommitStatus := fun _ _ => .ok ()
  AddComment := fun _ => .ok ()
  ListFiles := fun _ => .ok files
  GetFileBlob := fun o =>
    match blobs o.Path with
    | some d => .ok ⟨d⟩
    | none => .error ⟨"404 Not Found"⟩
  GetCommits := fun _ => .ok (.obj [("values", .arr [])])
  Get := fun _ => .ok ⟨⟨"main"⟩⟩

/-- Blobs `a.yaml`, `b.txt`, `c.yml` with contents `x:1`, `ignored`, `y:2`. -/
def sampleBlobs (path : String) : Option String :=
  if path = "a.yaml" then some "x:1"
  else if path = "b.txt" then some "ignored"
  else if path = "c.yml" then some "y:2"
  else none

/-- A client whose listing is `a.yaml`, `b.txt`, `c.yml`. -/
def sampleClient : Client :=
  fakeClient [⟨"a.yaml"⟩, ⟨"b.txt"⟩, ⟨"c.yml"⟩] sampleBlobs

/-- Blobs `one.yaml` and `two.yaml`, the second beginning with a separator. -/
def separatedBlobs (path : String) : Option String :=
  if path = "one.yaml" then some "a: 1"
  else if path = "two.yaml" then some "---\nb: 2"
  else none

/-- An adapter whose client serves `separatedBlobs`. -/
def separatedVCS : VCS :=
  ⟨some (fakeClient [⟨"one.yaml"⟩, ⟨"two.yaml"⟩] separatedBlobs), none, none, none⟩

/-- An adapter whose client lists no YAML candidate and serves no blob. -/
def plainVCS : VCS :=
  ⟨some (fakeClient [⟨"README.md"⟩, ⟨"a.YAML"⟩, ⟨"yaml"⟩] fun _ => none), none, none, none⟩

/-- An adapter configured with `sampleClient`. -/
def sampleVCS : VCS := ⟨some sampleClient, some "secret", none, some "bot"⟩

/-- A pull-request event with id 7. -/
def sampleEvent : Event :=
  { Owner := "acme", Repository := "shop", SHA := "feature", SHATitle := "", SHAURL := "",
    HeadBranch := "feature", DefaultBranch := "", EventType := "pull_request",
    Event := .pullRequestEvent (some ⟨⟨7⟩⟩) }

/-- Application name and base API URL. -/
def samplePacOpts : PacOpts :=
  { ApplicationName := "Pipelines as Code", VCSAPIURL := "https://api.bitbucket.org/2.0",
    VCSUser := "bot", VCSToken := "secret" }

/-- A report with the given conclusion in phase `completed` with a long text. -/
def sampleStatus (conclusion : String) : StatusOpts :=
  { Status := "completed", Title := "My title", Conclusion := conclusion,
    Text := "task table", DetailsURL := "" }

/-- An adapter whose client lists `a.yaml`, `gone.yaml`, `c.yml` and does not
serve `gone.yaml`. -/
def brokenVCS : VCS :=
  ⟨some (fakeClient [⟨"a.yaml"⟩, ⟨"gone.yaml"⟩, ⟨"c.yml"⟩] sampleBlobs), none, none, none⟩

/-- An adapter on which `SetClient` has not been called. -/
def freshVCS : VCS := ⟨none, none, none, none⟩

/-- Stand-in for `bitbucket.NewBasicAuth`. -/
def sampleNewBasicAuth (_user _token : String) : Client := sampleClient

/-- Stand-in for `mapstructure.Decode` that accepts no value. -/
def rejectDecode (_ : Value) : Except GoError Commit := .error ⟨"cannot decode"⟩

/-- A client whose status post, comment post, commit query and repository
query answer as given, whatever the request; it lists and serves nothing. -/
def scriptedClient (status comment : Except GoError Unit) (commits : Except GoError Value)
    (repo : Except GoError Repository) : Client where
  CreateCommitStatus := fun _ _ => status
  AddComment := fun _ => comment
  ListFiles := fun _ => .ok []
  GetFileBlob := fun _ => .error ⟨"404 Not Found"⟩
  GetCommits := fun _ => commits
  Get := fun _ => repo

/-- A commit-query response with one entry. -/
def sampleCommits : Value :=
  .obj [("values", .arr [.obj [("hash", .str "0a1b2c3d"), ("message", .str "Fix the build"),
    ("href", .str "https://bitbucket.org/acme/shop/commits/0a1b2c3d")]])]

/-- Stand-in for `mapstructure.Decode`: reads the strings under `hash`,
`message` and `href` of a map. -/
def sampleDecode : Value → Except GoError Commit
  | .obj kvs =>
    match kvs.lookup "hash", kvs.lookup "message", kvs.lookup "href" with
    | some (.str h), some (.str m), some (.str u) => .ok ⟨h, m, u⟩
    | _, _, _ => .error ⟨"cannot decode"⟩
  | _ => .error ⟨"cannot decode"⟩

/-- An adapter whose commit query returns `sampleCommits` and whose repository
query succeeds with main branch `main`. -/
def commitVCS : VCS :=
  ⟨some (scriptedClient (.ok ()) (.ok ()) (.ok sampleCommits) (.ok ⟨⟨"main"⟩⟩)), none, none, none⟩

/-- An adapter whose commit query returns `sampleCommits` and whose repository
query fails. -/
def repoDownVCS : VCS :=
  ⟨some (scriptedClient (.ok ()) (.ok ()) (.ok sampleCommits)
    (.error ⟨"503 Service Unavailable"⟩)), none, none, none⟩

/-- The comment request built by `CreateStatus` for a pull-request number
(source lines 88-94). -/
def commentOf (event : Event) (pacopts : PacOpts) (statusopts : StatusOpts)
    (prNumber : String) : PullRequestCommentOptions :=
  { Owner := event.Owner, RepoSlug := event.Repository, PullRequestID := prNumber,
    Content := "**" ++ pacopts.ApplicationName ++ "** - " ++ (translate statusopts).Title ++
      "\n\n" ++ (translate statusopts).Text }

/-- An adapter whose status post fails. -/
def statusDownVCS : VCS :=
  ⟨some (scriptedClient (.error ⟨"500 Internal Server Error"⟩) (.ok ()) (.ok sampleCommits)
    (.ok ⟨⟨"main"⟩⟩)), none, none, none⟩

/-- An adapter whose status post succeeds and whose comment post fails. -/
def commentDownVCS : VCS :=
  ⟨some (scriptedClient (.ok ()) (.error ⟨"403 Forbidden"⟩) (.ok sampleCommits)
    (.ok ⟨⟨"main"⟩⟩)), none, none, none⟩

/-- The event `sampleEvent` with a payload that is not a pull-request event. -/
def pushPayloadEvent : Event := { sampleEvent with Event := .other }

/-- The event `sampleEvent` with a payload that is a nil
`*types.PullRequestEvent`: a pull-request event with no id. -/
def nilPayloadEvent : Event := { sampleEvent with Event := .pullRequestEvent none }

/-- A report with a details link. -/
def linkedStatus : StatusOpts :=
  { sampleStatus "pending" with DetailsURL := "https://console.example/run/42" }

/-- The event `sampleEvent` after its SHA was resolved to a commit hash. -/
def resolvedEvent : Event := { sampleEvent with SHA := "0a1b2c3d" }

/-- An adapter whose listing mixes YAML candidates with `b.txt` and `a.YAML`;
the blob `a.YAML` is not served. -/
def mixedVCS : VCS :=
  ⟨some (fakeClient [⟨"a.yaml"⟩, ⟨"b.txt"⟩, ⟨"a.YAML"⟩, ⟨"c.yml"⟩] sampleBlobs), none, none,
    none⟩

/-- An adapter whose listing holds only the YAML candidates of `mixedVCS`. -/
def filteredVCS : VCS :=
  ⟨some (fakeClient [⟨"a.yaml"⟩, ⟨"c.yml"⟩] sampleBlobs), none, none, none⟩

/-! ## Shared lemmas -/

theorem translate_Status (so : StatusOpts) : (translate so).Status = so.Status := by
  unfold translate
  repeat' split
  all_goals rfl

theorem translate_Text (so : StatusOpts) : (translate so).Text = so.Text := by
  unfold translate
  repeat' split
  all_goals rfl

theorem translate_DetailsURL (so : StatusOpts) :
    (translate so).DetailsURL = so.DetailsURL := by
  unfold translate
  repeat' split
  all_goals rfl

/-- With a client, `CreateStatus` first posts the status built at source lines
60-70; any further call is one pull-request comment. -/
theorem CreateStatus_calls (v : VCS) (c : Client) (event : Event) (pacopts : PacOpts)
    (so : StatusOpts) (hc : v.Client = some c) :
    (CreateStatus v event pacopts so).calls
        = [.CreateCommitStatus (cmoOf event) (csoOf pacopts so)] ∨
      ∃ o, (CreateStatus v event pacopts so).calls
        = [.CreateCommitStatus (cmoOf event) (csoOf pacopts so), .AddComment o] := by
  simp only [CreateStatus, hc, cmoOf, csoOf, detailsURLOf]
  split
  · exact Or.inl rfl
  · split
    · split
      · exact Or.inl rfl
      · exact Or.inl rfl
      · split
        · exact Or.inr ⟨_, rfl⟩
        · exact Or.inr ⟨_, rfl⟩
    · exact Or.inl rfl

/-- With a client, `CreateStatus` posts exactly one commit status: the one
built at source lines 60-65. -/
theorem postedStatuses_CreateStatus (v : VCS) (c : Client) (event : Event)
    (pacopts : PacOpts) (so : StatusOpts) (hc : v.Client = some c) :
    postedStatuses (CreateStatus v event pacopts so).calls = [csoOf pacopts so] := by
  rcases CreateStatus_calls v c event pacopts so hc with h | ⟨o, h⟩ <;>
    simp [h, postedStatuses]

/-! ## Status translation (`CreateStatus`) -/

/-- C1, as stated, fails: for the conclusion `skipped` the posted Description
is `➖ Skipping this commit` (with the leading symbol), not
`Skipping this commit`. -/
theorem C1_counterexample :
    sampleVCS.Client = some sampleClient ∧
    (sampleStatus "skipped").Conclusion = "skipped" ∧
    postedStatePairs
        (CreateStatus sampleVCS sampleEvent samplePacOpts (sampleStatus "skipped")).calls
      = [("STOPPED", "➖ Skipping this commit")] ∧
    postedStatePairs
        (CreateStatus sampleVCS sampleEvent samplePacOpts (sampleStatus "skipped")).calls
      ≠ [("STOPPED", "Skipping this commit")] :=
  ⟨rfl, by decide, by decide, by decide⟩

/-- C1 (amended): with a configured client, for each of the six recognized
conclusions `CreateStatus` posts exactly one commit status, whose
(State, Description) is the pair of the table in the source, the titles
carrying their leading symbol. -/
theorem C1_translation_table (v : VCS) (c : Client) (event : Event) (pacopts : PacOpts)
    (so : StatusOpts) (hc : v.Client = some c) :
    (so.Conclusion = "skipped" →
      postedStatePairs (CreateStatus v event pacopts so).calls
        = [("STOPPED", "➖ Skipping this commit")]) ∧
    (so.Conclusion = "neutral" →
      postedStatePairs (CreateStatus v event pacopts so).calls
        = [("STOPPED", "➖ CI has stopped")]) ∧
    (so.Conclusion = "failure" →
      postedStatePairs (CreateStatus v event pacopts so).calls
        = [("FAILED", "❌ Failed")]) ∧
    (so.Conclusion = "pending" →
      postedStatePairs (CreateStatus v event pacopts so).calls
        = [("INPROGRESS", "⚡ CI has started")]) ∧
    (so.Conclusion = "success" →
      postedStatePairs (CreateStatus v event pacopts so).calls
        = [("SUCCESSFUL", "✅ Commit has been validated")]) ∧
    (so.Conclusion = "completed" →
      postedStatePairs (CreateStatus v event pacopts so).calls
        = [("SUCCESSFUL", "✅ Completed")]) := by
  simp only [postedStatePairs, postedStatuses_CreateStatus v c event pacopts so hc]
  refine ⟨?_, ?_, ?_, ?_, ?_, ?_⟩ <;> intro h <;> simp [csoOf, translate, h]

/-- C1 (amended) at the conclusion `failure` on a configured adapter. -/
theorem C1_translation_table_witness :
    sampleVCS.Client = some sampleClient ∧
    postedStatePairs
        (CreateStatus sampleVCS sampleEvent samplePacOpts (sampleStatus "failure")).calls
      = [("FAILED", "❌ Failed")] :=
  ⟨rfl, (C1_translation_table sampleVCS sampleClient sampleEvent samplePacOpts
    (sampleStatus "failure") rfl).2.2.1 rfl⟩

/-- C2: with a configured client, a successful status post and a pull-request
payload with non-zero id, a pull-request comment is posted if and only if
the translated conclusion is not `STOPPED`, the status is `completed`, the
text is non-empty and the event type is `pull_request`. -/
theorem C2_comment_iff_gate (v : VCS) (c : Client) (event : Event) (pacopts : PacOpts)
    (so : StatusOpts) (pr : PullRequestEvent) (hc : v.Client = some c)
    (hpost : ∀ cmo cso, Call.CreateCommitStatus cmo cso ∈ (CreateStatus v event pacopts so).calls →
      c.CreateCommitStatus cmo cso = .ok ())
    (hpr : event.Event = .pullRequestEvent (some pr)) (hid : pr.PullRequest.ID ≠ 0) :
    (∃ o, Call.AddComment o ∈ (CreateStatus v event pacopts so).calls) ↔
      ((translate so).Conclusion ≠ "STOPPED" ∧ so.Status = "completed" ∧
        so.Text ≠ "" ∧ event.EventType = "pull_request") := by
  have hok : c.CreateCommitStatus (cmoOf event) (csoOf pacopts so) = .ok () := by
    apply hpost
    rcases CreateStatus_calls v c event pacopts so hc with h | ⟨o, h⟩ <;> simp [h]
  have hnum : getPullRequestNumber event.Event = .ok (SprintfD pr.PullRequest.ID) := by
    simp [getPullRequestNumber, hpr, hid]
  simp only [cmoOf, csoOf, detailsURLOf] at hok
  simp only [CreateStatus, hc, hok, hnum, translate_Status, translate_Text]
  by_cases hg : (translate so).Conclusion ≠ "STOPPED" ∧ so.Status = "completed" ∧
      so.Text ≠ "" ∧ event.EventType = "pull_request"
  · rw [if_pos hg]
    simp only [hg, ne_eq, not_false_eq_true, and_self, iff_true]
    split <;> exact ⟨_, List.mem_cons_of_mem _ (List.mem_cons_self _ _)⟩
  · rw [if_neg hg]
    simp [hg]

/-- C2 on a pull-request event with id 7 whose report passes the gate: the
comment is posted. -/
theorem C2_comment_iff_gate_witness :
    (∃ o, Call.AddComment o ∈
        (CreateStatus sampleVCS sampleEvent samplePacOpts (sampleStatus "success")).calls) ↔
      ((translate (sampleStatus "success")).Conclusion ≠ "STOPPED" ∧
        (sampleStatus "success").Status = "completed" ∧
        (sampleStatus "success").Text ≠ "" ∧ sampleEvent.EventType = "pull_request") :=
  C2_comment_iff_gate sampleVCS sampleClient sampleEvent samplePacOpts (sampleStatus "success")
    ⟨⟨7⟩⟩ rfl (fun _ _ _ => rfl) rfl (by decide)

/-- C4: with a configured client, a conclusion that is none of the six
recognized ones is posted unchanged as State, with the caller's Title
unchanged as Description. -/
theorem C4_unrecognized_passthrough (v : VCS) (c : Client) (event : Event)
    (pacopts : PacOpts) (so : StatusOpts) (hc : v.Client = some c)
    (h1 : so.Conclusion ≠ "skipped") (h2 : so.Conclusion ≠ "neutral")
    (h3 : so.Conclusion ≠ "failure") (h4 : so.Conclusion ≠ "pending")
    (h5 : so.Conclusion ≠ "success") (h6 : so.Conclusion ≠ "completed") :
    postedStatePairs (CreateStatus v event pacopts so).calls
      = [(so.Conclusion, so.Title)] := by
  simp [postedStatePairs, postedStatuses_CreateStatus v c event pacopts so hc, csoOf,
    translate, h1, h2, h3, h4, h5, h6]

/-- C4 at the conclusion `cancelled`. -/
theorem C4_unrecognized_passthrough_witness :
    postedStatePairs
        (CreateStatus sampleVCS sampleEvent samplePacOpts (sampleStatus "cancelled")).calls
      = [("cancelled", "My title")] :=
  C4_unrecognized_passthrough sampleVCS sampleClient sampleEvent samplePacOpts
    (sampleStatus "cancelled") rfl (by decide) (by decide) (by decide) (by decide)
    (by decide) (by decide)

/-! ## Config bundle (`GetTektonDir`, `concatAllYamlFiles`) -/

theorem append_ne_empty (a b : String) (hb : b ≠ "") : a ++ b ≠ "" := by
  intro h
  apply hb
  have hlen := congrArg String.length h
  simp [String.length_append] at hlen
  exact String.ext (List.length_eq_zero.mp hlen.2)

theorem block_ne_empty (d : String) : "\n" ++ d ++ "\n" ≠ "" := by
  apply append_ne_empty
  decide

/-- From a non-empty accumulator every document is written as in `bundleRest`. -/
theorem accumulate_of_ne (ds : List String) :
    ∀ acc : String, acc ≠ "" → accumulate acc ds = acc ++ bundleRest ds := by
  induction ds with
  | nil => intro acc _; simp [accumulate, bundleRest]
  | cons d ds ih =>
    intro acc hacc
    rw [accumulate, ih _ (append_ne_empty _ _ (block_ne_empty d))]
    by_cases hp : HasPrefix d "---" = true
    · simp [hp, bundleRest, String.append_assoc]
    · simp [hp, hacc, bundleRest, String.append_assoc]

/-- From the empty accumulator the loop body computes `bundle`. -/
theorem accumulate_empty (ds : List String) : accumulate "" ds = bundle ds := by
  cases ds with
  | nil => rfl
  | cons d ds =>
    rw [accumulate, accumulate_of_ne _ _ (append_ne_empty _ _ (block_ne_empty d))]
    simp [bundle]

theorem bundleRest_append (xs ys : List String) :
    bundleRest (xs ++ ys) = bundleRest xs ++ bundleRest ys := by
  induction xs with
  | nil => simp [bundleRest]
  | cons x xs ih => simp [bundleRest, ih, String.append_assoc]

/-- Bundles concatenate when the second list is empty or its first document
begins with the separator. -/
theorem bundle_append (xs ys : List String)
    (h : ∀ y, ys.head? = some y → HasPrefix y "---" = true) :
    bundle (xs ++ ys) = bundle xs ++ bundle ys := by
  have hys : bundleRest ys = bundle ys := by
    cases ys with
    | nil => rfl
    | cons y ys => simp [bundleRest, bundle, h y rfl]
  cases xs with
  | nil => simp [bundle]
  | cons x xs => simp [bundle, bundleRest_append, hys, String.append_assoc]

/-- When every YAML candidate is served, the loop ends normally with the
accumulated documents, having fetched the candidates in listing order. -/
theorem concatLoop_ok (v : VCS) (c : Client) (runevent : Event) (content : String → String)
    (hc : v.Client = some c) (files : List RepositoryFile) :
    ∀ (acc : String) (log : List Call),
    (∀ f ∈ files, isYAMLCandidate f = true →
      c.GetFileBlob (headBlobOptions runevent f.Path) = .ok ⟨content f.Path⟩) →
    concatLoop v runevent files acc log =
      ⟨.ok (accumulate acc ((files.filter isYAMLCandidate).map fun f => content f.Path)),
        log ++ (files.filter isYAMLCandidate).map (fun f =>
          Call.GetFileBlob (headBlobOptions runevent f.Path)),
        some (accumulate acc ((files.filter isYAMLCandidate).map fun f => content f.Path))⟩ := by
  induction files with
  | nil => intro acc log _; simp [concatLoop, accumulate]
  | cons f rest ih =>
    intro acc log hf
    have hrest := fun acc log => ih acc log (fun g hg => hf g (List.mem_cons_of_mem _ hg))
    by_cases hy : isYAMLCandidate f = true
    · have hb := hf f (List.mem_cons_self _ _) hy
      have hy2 := hy
      simp only [isYAMLCandidate] at hy2
      simp only [headBlobOptions] at hb
      simp only [concatLoop, hy2, if_true, getBlob, hc, hb, hrest, RepositoryBlob.String]
      simp [List.filter_cons, hy, accumulate, headBlobOptions]
    · have hy2 := hy
      simp only [isYAMLCandidate] at hy2
      simp only [concatLoop, hy2, hrest]
      simp [List.filter_cons, hy]

/-- A loop that ends normally was served every YAML candidate. -/
theorem concatLoop_fetched (v : VCS) (c : Client) (runevent : Event)
    (hc : v.Client = some c) (files : List RepositoryFile) :
    ∀ (acc : String) (log : List Call) (s : String),
    (concatLoop v runevent files acc log).result = .ok s →
    ∀ f ∈ files, isYAMLCandidate f = true →
      c.GetFileBlob (headBlobOptions runevent f.Path) = .ok ⟨contentAt c runevent f.Path⟩ := by
  induction files with
  | nil => intro _ _ _ _ f hf; cases hf
  | cons g rest ih =>
    intro acc log s hs f hf hyf
    by_cases hy : isYAMLCandidate g = true
    · have hy2 := hy
      simp only [isYAMLCandidate] at hy2
      cases hb : c.GetFileBlob (headBlobOptions runevent g.Path) with
      | error e =>
        simp only [headBlobOptions] at hb
        simp [concatLoop, hy2, getBlob, hc, hb] at hs
      | ok b =>
        rcases List.mem_cons.mp hf with rfl | hmem
        · simp [contentAt, hb, RepositoryBlob.String]
        · simp only [headBlobOptions] at hb
          simp only [concatLoop, hy2, if_true, getBlob, hc, hb] at hs
          exact ih _ _ s hs f hmem hyf
    · have hy2 := hy
      simp only [isYAMLCandidate] at hy2
      rcases List.mem_cons.mp hf with rfl | hmem
      · exact absurd hyf hy
      · simp only [concatLoop, hy2] at hs
        exact ih _ _ s hs f hmem hyf

/-- With a client and a successful listing, `GetTektonDir` is the listing call
followed by the loop over the listed entries. -/
theorem GetTektonDir_listed (v : VCS) (c : Client) (event : Event) (path : String)
    (files : List RepositoryFile) (hc : v.Client = some c)
    (hl : c.ListFiles ⟨event.Owner, event.Repository, event.SHA, path⟩ = .ok files) :
    GetTektonDir v event path =
      ⟨(concatAllYamlFiles v files event).result,
        .ListFiles ⟨event.Owner, event.Repository, event.SHA, path⟩ ::
          (concatAllYamlFiles v files event).calls,
        (concatAllYamlFiles v files event).returned⟩ := by
  simp [GetTektonDir, hc, hl]

/-- C3, as stated, fails: for entries `a.yaml`, `b.txt`, `c.yml` with contents
`x:1`, `ignored`, `y:2` the returned string begins with a newline, so it is
not `x:1\n---\ny:2\n`. -/
theorem C3_counterexample :
    sampleClient.ListFiles ⟨"acme", "shop", "feature", ".tekton"⟩
      = .ok [⟨"a.yaml"⟩, ⟨"b.txt"⟩, ⟨"c.yml"⟩] ∧
    sampleClient.GetFileBlob ⟨"acme", "shop", "feature", "a.yaml"⟩ = .ok ⟨"x:1"⟩ ∧
    sampleClient.GetFileBlob ⟨"acme", "shop", "feature", "b.txt"⟩ = .ok ⟨"ignored"⟩ ∧
    sampleClient.GetFileBlob ⟨"acme", "shop", "feature", "c.yml"⟩ = .ok ⟨"y:2"⟩ ∧
    (GetTektonDir sampleVCS sampleEvent ".tekton").result = .ok "\nx:1\n---\ny:2\n" ∧
    (GetTektonDir sampleVCS sampleEvent ".tekton").result ≠ .ok "x:1\n---\ny:2\n" :=
  ⟨rfl, rfl, rfl, rfl, by decide, by decide⟩

/-- C3 (amended): when the listing succeeds and every entry ending in `.yaml`
or `.yml` is served, `GetTektonDir` returns the contents of those entries in
listing order, each written between two newlines, with the separator `---`
before every document after the first that does not already begin with
`---` and no separator before the first. -/
theorem C3_bundle (v : VCS) (c : Client) (event : Event) (path : String)
    (files : List RepositoryFile) (content : String → String) (hc : v.Client = some c)
    (hl : c.ListFiles ⟨event.Owner, event.Repository, event.SHA, path⟩ = .ok files)
    (hf : ∀ f ∈ files, isYAMLCandidate f = true →
      c.GetFileBlob ⟨event.Owner, event.Repository, event.HeadBranch, f.Path⟩
        = .ok ⟨content f.Path⟩) :
    (GetTektonDir v event path).result
      = .ok (bundle ((files.filter isYAMLCandidate).map fun f => content f.Path)) := by
  rw [GetTektonDir_listed v c event path files hc hl, concatAllYamlFiles,
    concatLoop_ok v c event content hc files "" [] hf, accumulate_empty]

/-- C3 (amended) on the entries `a.yaml`, `b.txt`, `c.yml` with contents `x:1`,
`ignored`, `y:2`: the result is `\nx:1\n---\ny:2\n`. -/
theorem C3_bundle_witness :
    (GetTektonDir sampleVCS sampleEvent ".tekton").result
        = .ok (bundle ["x:1", "y:2"]) ∧
      bundle ["x:1", "y:2"] = "\nx:1\n---\ny:2\n" :=
  ⟨C3_bundle sampleVCS sampleClient sampleEvent ".tekton" [⟨"a.yaml"⟩, ⟨"b.txt"⟩, ⟨"c.yml"⟩]
      (fun p => (sampleBlobs p).getD "") rfl rfl
      (by
        intro f hf _
        simp only [List.mem_cons, List.mem_singleton, List.not_mem_nil, or_false] at hf
        rcases hf with rfl | rfl | rfl <;> rfl),
    by decide⟩

/-- C5: when bundling `l1` and bundling `l2` both succeed and the first YAML
document of `l2` (if any) begins with `---`, bundling `l1 ++ l2` gives the
bundle of `l1` followed by the bundle of `l2`, with no separator added
between them; `l1 = [p1]`, `l2 = [p2]` is the case of two entries. -/
theorem C5_no_extra_separator (v : VCS) (c : Client) (runevent : Event)
    (l1 l2 : List RepositoryFile) (s1 s2 : String) (hc : v.Client = some c)
    (h1 : (concatAllYamlFiles v l1 runevent).result = .ok s1)
    (h2 : (concatAllYamlFiles v l2 runevent).result = .ok s2)
    (hsep : ∀ f blob, (l2.filter isYAMLCandidate).head? = some f →
      c.GetFileBlob ⟨runevent.Owner, runevent.Repository, runevent.HeadBranch, f.Path⟩
        = .ok blob →
      HasPrefix blob.String "---" = true) :
    (concatAllYamlFiles v (l1 ++ l2) runevent).result = .ok (s1 ++ s2) := by
  have hf1 := concatLoop_fetched v c runevent hc l1 "" [] s1 h1
  have hf2 := concatLoop_fetched v c runevent hc l2 "" [] s2 h2
  have hf : ∀ f ∈ l1 ++ l2, isYAMLCandidate f = true →
      c.GetFileBlob (headBlobOptions runevent f.Path)
        = .ok ⟨contentAt c runevent f.Path⟩ := by
    intro f hmem
    rcases List.mem_append.mp hmem with h | h
    · exact hf1 f h
    · exact hf2 f h
  simp only [concatAllYamlFiles, concatLoop_ok v c runevent _ hc l1 "" [] hf1,
    accumulate_empty, Outcome.ok.injEq] at h1
  simp only [concatAllYamlFiles, concatLoop_ok v c runevent _ hc l2 "" [] hf2,
    accumulate_empty, Outcome.ok.injEq] at h2
  simp only [concatAllYamlFiles, concatLoop_ok v c runevent _ hc (l1 ++ l2) "" [] hf,
    accumulate_empty, List.filter_append, List.map_append, Outcome.ok.injEq]
  rw [← h1, ← h2]
  apply bundle_append
  intro y hy
  cases hl : l2.filter isYAMLCandidate with
  | nil => simp [hl] at hy
  | cons f fs =>
    simp only [hl, List.map_cons, List.head?_cons, Option.some.injEq] at hy
    have hfy : isYAMLCandidate f = true := by
      have hmem : f ∈ l2.filter isYAMLCandidate := by rw [hl]; exact List.mem_cons_self _ _
      exact (List.mem_filter.mp hmem).2
    have hfl : f ∈ l2 := by
      have hmem : f ∈ l2.filter isYAMLCandidate := by rw [hl]; exact List.mem_cons_self _ _
      exact (List.mem_filter.mp hmem).1
    have hb := hf2 f hfl hfy
    have hp := hsep f _ (by rw [hl]; rfl) hb
    rw [← hy]
    exact hp

/-- C5 on two entries whose second document begins with `---`. -/
theorem C5_no_extra_separator_witness :
    (concatAllYamlFiles separatedVCS ([⟨"one.yaml"⟩] ++ [⟨"two.yaml"⟩]) sampleEvent).result
      = .ok ("\na: 1\n" ++ "\n---\nb: 2\n") :=
  C5_no_extra_separator separatedVCS
    (fakeClient [⟨"one.yaml"⟩, ⟨"two.yaml"⟩] separatedBlobs) sampleEvent
    [⟨"one.yaml"⟩] [⟨"two.yaml"⟩] "\na: 1\n" "\n---\nb: 2\n" rfl (by decide) (by decide)
    (by
      intro f blob hf hb
      have hf2 : f = ⟨"two.yaml"⟩ := by
        have h : (List.filter isYAMLCandidate [(⟨"two.yaml"⟩ : RepositoryFile)]).head?
            = some ⟨"two.yaml"⟩ := by decide
        rw [h] at hf
        exact (Option.some.inj hf).symm
      subst hf2
      have hb2 : blob = ⟨"---\nb: 2"⟩ := (Except.ok.inj hb).symm
      subst hb2
      decide)

/-- C6: when the listing succeeds and no entry ends in `.yaml` or `.yml` (the
empty listing included), `GetTektonDir` returns the empty string with no
error; its only remote call is the listing, so no blob is fetched. -/
theorem C6_no_yaml_empty (v : VCS) (c : Client) (event : Event) (path : String)
    (files : List RepositoryFile) (hc : v.Client = some c)
    (hl : c.ListFiles ⟨event.Owner, event.Repository, event.SHA, path⟩ = .ok files)
    (hno : ∀ f ∈ files, HasSuffix f.Path ".yaml" = false ∧ HasSuffix f.Path ".yml" = false) :
    (GetTektonDir v event path).result = .ok "" ∧
    (GetTektonDir v event path).calls
      = [.ListFiles ⟨event.Owner, event.Repository, event.SHA, path⟩] ∧
    blobFetches (GetTektonDir v event path).calls = [] := by
  have hfilter : files.filter isYAMLCandidate = [] := by
    apply List.filter_eq_nil_iff.mpr
    intro f hf
    simp [isYAMLCandidate, hno f hf]
  have hf : ∀ f ∈ files, isYAMLCandidate f = true →
      c.GetFileBlob (headBlobOptions event f.Path) = .ok ⟨""⟩ := by
    intro f hf hy
    simp [isYAMLCandidate, hno f hf] at hy
  rw [GetTektonDir_listed v c event path files hc hl, concatAllYamlFiles,
    concatLoop_ok v c event (fun _ => "") hc files "" [] hf, hfilter]
  simp [accumulate, blobFetches]

/-- C6 on a listing of `README.md`, `a.YAML` and `yaml`, and on the empty
listing: the result is the empty string and nothing is fetched. -/
theorem C6_no_yaml_empty_witness :
    ((GetTektonDir plainVCS sampleEvent ".tekton").result = .ok "" ∧
      (GetTektonDir plainVCS sampleEvent ".tekton").calls
        = [.ListFiles ⟨"acme", "shop", "feature", ".tekton"⟩] ∧
      blobFetches (GetTektonDir plainVCS sampleEvent ".tekton").calls = []) ∧
    (GetTektonDir ⟨some (fakeClient [] fun _ => none), none, none, none⟩ sampleEvent
        ".tekton").result = .ok "" :=
  ⟨C6_no_yaml_empty plainVCS (fakeClient [⟨"README.md"⟩, ⟨"a.YAML"⟩, ⟨"yaml"⟩] fun _ => none)
      sampleEvent ".tekton" [⟨"README.md"⟩, ⟨"a.YAML"⟩, ⟨"yaml"⟩] rfl rfl (by decide),
    by decide⟩

/-! ## Single file (`GetFileInsideRepo`, `getBlob`) -/

/-- With a client, `getBlob` issues exactly the one blob fetch for the event's
owner and repository at the given reference and path. -/
theorem getBlob_calls (v : VCS) (c : Client) (runevent : Event) (ref path : String)
    (hc : v.Client = some c) :
    (getBlob v runevent ref path).calls
      = [.GetFileBlob ⟨runevent.Owner, runevent.Repository, ref, path⟩] := by
  simp only [getBlob, hc]
  split <;> rfl

/-- C7: on an adapter with a client, `GetFileInsideRepo` issues exactly one
remote call, a blob fetch for the event's owner and repository and the given
path, at `targetBranch` when that is non-empty (whatever the head branch)
and at the event's head branch when it is empty. -/
theorem C7_reference_precedence (v : VCS) (c : Client) (runevent : Event)
    (path targetBranch : String) (hc : v.Client = some c) :
    (targetBranch ≠ "" →
      (GetFileInsideRepo v runevent path targetBranch).calls
        = [.GetFileBlob ⟨runevent.Owner, runevent.Repository, targetBranch, path⟩]) ∧
    (targetBranch = "" →
      (GetFileInsideRepo v runevent path targetBranch).calls
        = [.GetFileBlob ⟨runevent.Owner, runevent.Repository, runevent.HeadBranch, path⟩]) := by
  constructor
  · intro h
    simp [GetFileInsideRepo, h, getBlob_calls v c runevent _ path hc]
  · intro h
    simp [GetFileInsideRepo, h, getBlob_calls v c runevent _ path hc]

/-- C7 with target branch `release` on an event whose head branch is
`feature`: the blob is fetched at `release`. -/
theorem C7_reference_precedence_witness :
    sampleEvent.HeadBranch = "feature" ∧
    (GetFileInsideRepo sampleVCS sampleEvent "a.yaml" "release").calls
      = [.GetFileBlob ⟨"acme", "shop", "release", "a.yaml"⟩] :=
  ⟨rfl, (C7_reference_precedence sampleVCS sampleClient sampleEvent "a.yaml" "release" rfl).1
    (by decide)⟩

/-- With a client, a failed fetch makes `getBlob` return the not-found error,
whatever the client's error was. -/
theorem getBlob_failed (v : VCS) (c : Client) (runevent : Event) (ref path : String)
    (e : GoError) (hc : v.Client = some c)
    (hfail : c.GetFileBlob ⟨runevent.Owner, runevent.Repository, ref, path⟩ = .error e) :
    getBlob v runevent ref path =
      ⟨.err ⟨notFoundMessage path ref runevent.Owner runevent.Repository⟩,
        [.GetFileBlob ⟨runevent.Owner, runevent.Repository, ref, path⟩], some ""⟩ := by
  simp [getBlob, hc, hfail, notFoundMessage, Errorf]

/-- Entries that are served or skipped are passed over: the loop continues on
the remaining entries from the accumulated text and calls. -/
theorem concatLoop_append (v : VCS) (c : Client) (runevent : Event)
    (hc : v.Client = some c) (pre rest : List RepositoryFile) :
    ∀ (acc : String) (log : List Call),
    (∀ f ∈ pre, isYAMLCandidate f = true →
      ∃ blob, c.GetFileBlob (headBlobOptions runevent f.Path) = .ok blob) →
    concatLoop v runevent (pre ++ rest) acc log =
      concatLoop v runevent rest
        (accumulate acc ((pre.filter isYAMLCandidate).map fun f => contentAt c runevent f.Path))
        (log ++ (pre.filter isYAMLCandidate).map fun f =>
          Call.GetFileBlob (headBlobOptions runevent f.Path)) := by
  induction pre with
  | nil => intro acc log _; simp [accumulate]
  | cons f pre ih =>
    intro acc log hf
    have hrest := fun acc log => ih acc log (fun g hg => hf g (List.mem_cons_of_mem _ hg))
    by_cases hy : isYAMLCandidate f = true
    · obtain ⟨blob, hb⟩ := hf f (List.mem_cons_self _ _) hy
      have hcontent : contentAt c runevent f.Path = blob.Content := by
        simp [contentAt, hb, RepositoryBlob.String]
      have hy2 := hy
      simp only [isYAMLCandidate] at hy2
      simp only [headBlobOptions] at hb
      rw [List.cons_append]
      simp only [concatLoop, hy2, if_true, getBlob, hc, hb, RepositoryBlob.String]
      rw [hrest]
      simp [List.filter_cons, hy, accumulate, headBlobOptions, hcontent]
    · have hy2 := hy
      simp only [isYAMLCandidate] at hy2
      rw [List.cons_append]
      simp only [concatLoop, hy2]
      rw [hrest]
      simp [List.filter_cons, hy]

/-- The loop stops at the first YAML candidate that is not served, returning
the not-found error of that entry and no text. -/
theorem concatLoop_first_failure (v : VCS) (c : Client) (runevent : Event)
    (hc : v.Client = some c) (pre post : List RepositoryFile) (f : RepositoryFile)
    (e : GoError) (acc : String) (log : List Call)
    (hpre : ∀ g ∈ pre, isYAMLCandidate g = true →
      ∃ blob, c.GetFileBlob (headBlobOptions runevent g.Path) = .ok blob)
    (hy : isYAMLCandidate f = true)
    (hfail : c.GetFileBlob (headBlobOptions runevent f.Path) = .error e) :
    concatLoop v runevent (pre ++ f :: post) acc log =
      ⟨.err ⟨notFoundMessage f.Path runevent.HeadBranch runevent.Owner runevent.Repository⟩,
        (log ++ (pre.filter isYAMLCandidate).map fun g =>
          Call.GetFileBlob (headBlobOptions runevent g.Path)) ++
          [.GetFileBlob (headBlobOptions runevent f.Path)], some ""⟩ := by
  rw [concatLoop_append v c runevent hc pre (f :: post) acc log hpre]
  have hy2 := hy
  simp only [isYAMLCandidate] at hy2
  simp only [headBlobOptions] at hfail
  simp only [concatLoop, hy2, if_true,
    getBlob_failed v c runevent runevent.HeadBranch f.Path e hc hfail, headBlobOptions]

theorem contains_notFoundMessage (path ref owner repository : String) :
    Contains (notFoundMessage path ref owner repository) path ∧
    Contains (notFoundMessage path ref owner repository) ref ∧
    Contains (notFoundMessage path ref owner repository) owner ∧
    Contains (notFoundMessage path ref owner repository) repository := by
  refine ⟨⟨"cannot find ", " on branch " ++ ref ++ " in repo " ++ owner ++ "/" ++ repository, ?_⟩,
    ⟨"cannot find " ++ path ++ " on branch ", " in repo " ++ owner ++ "/" ++ repository, ?_⟩,
    ⟨"cannot find " ++ path ++ " on branch " ++ ref ++ " in repo ", "/" ++ repository, ?_⟩,
    ⟨"cannot find " ++ path ++ " on branch " ++ ref ++ " in repo " ++ owner ++ "/", "", ?_⟩⟩ <;>
  simp [notFoundMessage, String.append_assoc]

/-- C8: on an adapter with a client, whenever the blob fetch fails, `getBlob`
returns an error whose message is `notFoundMessage` of the path, the
reference, the owner and the repository, so it is the same whatever the
client's error was; `GetFileInsideRepo` returns it for the reference it
resolved and `GetTektonDir` for the first YAML entry that is not served; the
message contains the path, the reference, the owner and the repository. -/
theorem C8_not_found_error (v : VCS) (c : Client) (runevent : Event)
    (hc : v.Client = some c) :
    (∀ ref path e,
      c.GetFileBlob ⟨runevent.Owner, runevent.Repository, ref, path⟩ = .error e →
      (getBlob v runevent ref path).result
        = .err ⟨notFoundMessage path ref runevent.Owner runevent.Repository⟩) ∧
    (∀ ref path e (v2 : VCS) (c2 : Client) e2, v2.Client = some c2 →
      c.GetFileBlob ⟨runevent.Owner, runevent.Repository, ref, path⟩ = .error e →
      c2.GetFileBlob ⟨runevent.Owner, runevent.Repository, ref, path⟩ = .error e2 →
      (getBlob v runevent ref path).result = (getBlob v2 runevent ref path).result) ∧
    (∀ path targetBranch e,
      c.GetFileBlob ⟨runevent.Owner, runevent.Repository, branchOf runevent targetBranch, path⟩
        = .error e →
      (GetFileInsideRepo v runevent path targetBranch).result
        = .err ⟨notFoundMessage path (branchOf runevent targetBranch) runevent.Owner
            runevent.Repository⟩) ∧
    (∀ dir pre f post e,
      c.ListFiles ⟨runevent.Owner, runevent.Repository, runevent.SHA, dir⟩
        = .ok (pre ++ f :: post) →
      (∀ g ∈ pre, isYAMLCandidate g = true → ∃ blob,
        c.GetFileBlob ⟨runevent.Owner, runevent.Repository, runevent.HeadBranch, g.Path⟩
          = .ok blob) →
      isYAMLCandidate f = true →
      c.GetFileBlob ⟨runevent.Owner, runevent.Repository, runevent.HeadBranch, f.Path⟩
        = .error e →
      (GetTektonDir v runevent dir).result
        = .err ⟨notFoundMessage f.Path runevent.HeadBranch runevent.Owner
            runevent.Repository⟩) ∧
    (∀ path ref,
      Contains (notFoundMessage path ref runevent.Owner runevent.Repository) path ∧
      Contains (notFoundMessage path ref runevent.Owner runevent.Repository) ref ∧
      Contains (notFoundMessage path ref runevent.Owner runevent.Repository) runevent.Owner ∧
      Contains (notFoundMessage path ref runevent.Owner runevent.Repository)
        runevent.Repository) := by
  refine ⟨?_, ?_, ?_, ?_, ?_⟩
  · intro ref path e hfail
    rw [getBlob_failed v c runevent ref path e hc hfail]
  · intro ref path e v2 c2 e2 hc2 hfail hfail2
    rw [getBlob_failed v c runevent ref path e hc hfail,
      getBlob_failed v2 c2 runevent ref path e2 hc2 hfail2]
  · intro path targetBranch e hfail
    simp only [branchOf] at hfail
    simp only [GetFileInsideRepo, branchOf]
    rw [getBlob_failed v c runevent _ path e hc hfail]
  · intro dir pre f post e hl hpre hy hfail
    rw [GetTektonDir_listed v c runevent dir _ hc hl, concatAllYamlFiles,
      concatLoop_first_failure v c runevent hc pre post f e "" [] hpre hy hfail]
  · intro path ref
    exact contains_notFoundMessage path ref runevent.Owner runevent.Repository

/-- C8 on an adapter that does not serve `gone.yaml`: fetching it at `release`
and bundling a directory that lists it both return the not-found error. -/
theorem C8_not_found_error_witness :
    (GetFileInsideRepo brokenVCS sampleEvent "gone.yaml" "release").result
      = .err ⟨"cannot find gone.yaml on branch release in repo acme/shop"⟩ ∧
    (GetTektonDir brokenVCS sampleEvent ".tekton").result
      = .err ⟨"cannot find gone.yaml on branch feature in repo acme/shop"⟩ :=
  ⟨(C8_not_found_error brokenVCS
      (fakeClient [⟨"a.yaml"⟩, ⟨"gone.yaml"⟩, ⟨"c.yml"⟩] sampleBlobs) sampleEvent rfl).2.2.1
      "gone.yaml" "release" ⟨"404 Not Found"⟩ rfl,
    (C8_not_found_error brokenVCS
      (fakeClient [⟨"a.yaml"⟩, ⟨"gone.yaml"⟩, ⟨"c.yml"⟩] sampleBlobs) sampleEvent rfl).2.2.2.1
      ".tekton" [⟨"a.yaml"⟩] ⟨"gone.yaml"⟩ [⟨"c.yml"⟩] ⟨"404 Not Found"⟩ rfl
      (by
        intro g hg _
        rw [List.mem_singleton.mp hg]
        exact ⟨⟨"x:1"⟩, rfl⟩)
      (by decide) rfl⟩

/-! ## Credentials (`SetClient`) -/

/-- C9: `SetClient` returns an error if and only if the user or the token is
empty; the error for an empty user differs from the error for a non-empty
user with an empty token; on error the adapter's Client, Token and Username
are unchanged, and on success the Client is built from the credentials and
Token and Username hold them. -/
theorem C9_SetClient (NewBasicAuth : String → String → Client) (v : VCS) (opts : PacOpts) :
    ((SetClient NewBasicAuth v opts).2 ≠ none ↔ (opts.VCSUser = "" ∨ opts.VCSToken = "")) ∧
    (∀ (v2 : VCS) (opts2 : PacOpts), opts.VCSUser = "" → opts2.VCSUser ≠ "" →
      opts2.VCSToken = "" →
      (SetClient NewBasicAuth v opts).2 ≠ (SetClient NewBasicAuth v2 opts2).2) ∧
    ((SetClient NewBasicAuth v opts).2 ≠ none →
      (SetClient NewBasicAuth v opts).1.Client = v.Client ∧
      (SetClient NewBasicAuth v opts).1.Token = v.Token ∧
      (SetClient NewBasicAuth v opts).1.Username = v.Username) ∧
    ((SetClient NewBasicAuth v opts).2 = none →
      (SetClient NewBasicAuth v opts).1.Client
        = some (NewBasicAuth opts.VCSUser opts.VCSToken) ∧
      (SetClient NewBasicAuth v opts).1.Token = some opts.VCSToken ∧
      (SetClient NewBasicAuth v opts).1.Username = some opts.VCSUser) := by
  refine ⟨?_, ?_, ?_, ?_⟩
  · by_cases hu : opts.VCSUser = "" <;> by_cases ht : opts.VCSToken = "" <;>
      simp [SetClient, hu, ht]
  · intro v2 opts2 hu hu2 ht2
    simp only [SetClient, hu, hu2, ht2, if_true, if_false]
    decide
  · by_cases hu : opts.VCSUser = "" <;> by_cases ht : opts.VCSToken = "" <;>
      simp [SetClient, hu, ht]
  · by_cases hu : opts.VCSUser = "" <;> by_cases ht : opts.VCSToken = "" <;>
      simp [SetClient, hu, ht]

/-! ## Commit lookup (`GetCommitInfo`) -/

/-- C10: on an adapter with a client, when the commit query succeeds with a
map whose `values` entry is an empty list, `GetCommitInfo` returns an error
whose message contains the event's SHA, its only remote call is the commit
query (no repository-metadata query), and the event is unchanged. -/
theorem C10_no_commit (Decode : Value → Except GoError Commit) (v : VCS) (c : Client)
    (event : Event) (kvs : List (String × Value)) (hc : v.Client = some c)
    (hq : c.GetCommits ⟨event.Owner, event.Repository, "", event.SHA⟩ = .ok (.obj kvs))
    (hv : kvs.lookup "values" = some (.arr [])) :
    (∃ msg, (GetCommitInfo Decode v event).2.result = .err ⟨msg⟩ ∧ Contains msg event.SHA) ∧
    (GetCommitInfo Decode v event).2.calls
      = [.GetCommits ⟨event.Owner, event.Repository, "", event.SHA⟩] ∧
    (∀ o, Call.Get o ∉ (GetCommitInfo Decode v event).2.calls) ∧
    (GetCommitInfo Decode v event).1 = event := by
  have hrun : GetCommitInfo Decode v event =
      (event, ⟨.err ⟨"we did not get commit information from commit: " ++ event.SHA⟩,
        [.GetCommits ⟨event.Owner, event.Repository, "", event.SHA⟩]⟩) := by
    simp [GetCommitInfo, hc, hq, Value.asMap, valuesOf, hv, Errorf]
  rw [hrun]
  refine ⟨⟨_, rfl, "we did not get commit information from commit: ", "", by simp⟩, rfl, ?_, rfl⟩
  intro o ho
  simp at ho

/-- C10 on a client that answers the commit query with an empty `values`
list. -/
theorem C10_no_commit_witness :
    (∃ msg, (GetCommitInfo rejectDecode sampleVCS sampleEvent).2.result = .err ⟨msg⟩ ∧
      Contains msg sampleEvent.SHA) ∧
    (GetCommitInfo rejectDecode sampleVCS sampleEvent).2.calls
      = [.GetCommits ⟨"acme", "shop", "", "feature"⟩] ∧
    (∀ o, Call.Get o ∉ (GetCommitInfo rejectDecode sampleVCS sampleEvent).2.calls) ∧
    (GetCommitInfo rejectDecode sampleVCS sampleEvent).1 = sampleEvent :=
  C10_no_commit rejectDecode sampleVCS sampleClient sampleEvent [("values", .arr [])]
    rfl rfl rfl

theorem valuesOf_eq_some (commitMap : List (String × Value)) (vs : List Value)
    (h : valuesOf commitMap = some vs) : commitMap.lookup "values" = some (.arr vs) := by
  unfold valuesOf at h
  split at h
  · rename_i ws hl
    rw [hl, Option.some.inj h]
  · cases h

/-- C11: on an adapter with a client, when the commit query returns a map whose
`values` list has a first entry that decodes to a commit and the repository
query succeeds, `GetCommitInfo` returns no error and the event afterwards has
SHA, SHATitle and SHAURL set to the hash, message and URL of that entry and
DefaultBranch set to the repository's main branch name; Owner, Repository,
HeadBranch, EventType and the payload are unchanged. -/
theorem C11_commit_info (Decode : Value → Except GoError Commit) (v : VCS) (c : Client)
    (event : Event) (kvs : List (String × Value)) (first : Value) (rest : List Value)
    (hash message htmlURL : String) (repo : Repository) (hc : v.Client = some c)
    (hq : c.GetCommits ⟨event.Owner, event.Repository, "", event.SHA⟩ = .ok (.obj kvs))
    (hv : kvs.lookup "values" = some (.arr (first :: rest)))
    (hd : Decode first = .ok ⟨hash, message, htmlURL⟩)
    (hr : c.Get ⟨event.Owner, event.Repository⟩ = .ok repo) :
    (GetCommitInfo Decode v event).2.result = .ok () ∧
    (GetCommitInfo Decode v event).1.SHA = hash ∧
    (GetCommitInfo Decode v event).1.SHATitle = message ∧
    (GetCommitInfo Decode v event).1.SHAURL = htmlURL ∧
    (GetCommitInfo Decode v event).1.DefaultBranch = repo.Mainbranch.Name ∧
    (GetCommitInfo Decode v event).1.Owner = event.Owner ∧
    (GetCommitInfo Decode v event).1.Repository = event.Repository ∧
    (GetCommitInfo Decode v event).1.HeadBranch = event.HeadBranch ∧
    (GetCommitInfo Decode v event).1.EventType = event.EventType ∧
    (GetCommitInfo Decode v event).1.Event = event.Event := by
  simp [GetCommitInfo, hc, hq, Value.asMap, valuesOf, hv, hd, hr]

/-- C11 on a response with one entry and a repository whose main branch is
`main`. -/
theorem C11_commit_info_witness :
    (GetCommitInfo sampleDecode commitVCS sampleEvent).2.result = .ok () ∧
    (GetCommitInfo sampleDecode commitVCS sampleEvent).1.SHA = "0a1b2c3d" ∧
    (GetCommitInfo sampleDecode commitVCS sampleEvent).1.SHATitle = "Fix the build" ∧
    (GetCommitInfo sampleDecode commitVCS sampleEvent).1.SHAURL
      = "https://bitbucket.org/acme/shop/commits/0a1b2c3d" ∧
    (GetCommitInfo sampleDecode commitVCS sampleEvent).1.DefaultBranch = "main" ∧
    (GetCommitInfo sampleDecode commitVCS sampleEvent).1.Owner = "acme" ∧
    (GetCommitInfo sampleDecode commitVCS sampleEvent).1.Repository = "shop" ∧
    (GetCommitInfo sampleDecode commitVCS sampleEvent).1.HeadBranch = "feature" ∧
    (GetCommitInfo sampleDecode commitVCS sampleEvent).1.EventType = "pull_request" ∧
    (GetCommitInfo sampleDecode commitVCS sampleEvent).1.Event
      = .pullRequestEvent (some ⟨⟨7⟩⟩) :=
  C11_commit_info sampleDecode commitVCS
    (scriptedClient (.ok ()) (.ok ()) (.ok sampleCommits) (.ok ⟨⟨"main"⟩⟩)) sampleEvent
    [("values", .arr [.obj [("hash", .str "0a1b2c3d"), ("message", .str "Fix the build"),
      ("href", .str "https://bitbucket.org/acme/shop/commits/0a1b2c3d")]])]
    (.obj [("hash", .str "0a1b2c3d"), ("message", .str "Fix the build"),
      ("href", .str "https://bitbucket.org/acme/shop/commits/0a1b2c3d")]) []
    "0a1b2c3d" "Fix the build" "https://bitbucket.org/acme/shop/commits/0a1b2c3d" ⟨⟨"main"⟩⟩
    rfl rfl rfl rfl rfl

/-- C12, as stated, fails: when the first entry decodes and the repository
query then fails, `GetCommitInfo` returns that error while the event's SHA
already holds the decoded hash instead of its value before the call. -/
theorem C12_counterexample :
    (GetCommitInfo sampleDecode repoDownVCS sampleEvent).2.result
      = .err ⟨"503 Service Unavailable"⟩ ∧
    sampleEvent.SHA = "feature" ∧
    (GetCommitInfo sampleDecode repoDownVCS sampleEvent).1.SHA = "0a1b2c3d" ∧
    (GetCommitInfo sampleDecode repoDownVCS sampleEvent).1.SHA ≠ sampleEvent.SHA := by
  decide

/-- C12 (amended): when `GetCommitInfo` returns an error without having issued
the repository query, the event (its SHA included) is as before the call;
when it returns an error after issuing the repository query, that error is
the repository query's, the first entry of `values` had decoded, and the
event's SHA is already the decoded hash. -/
theorem C12_sha_on_error (Decode : Value → Except GoError Commit) (v : VCS) (event : Event)
    (e : GoError) (herr : (GetCommitInfo Decode v event).2.result = .err e) :
    ((∀ o, Call.Get o ∉ (GetCommitInfo Decode v event).2.calls) →
      (GetCommitInfo Decode v event).1 = event) ∧
    ((∃ o, Call.Get o ∈ (GetCommitInfo Decode v event).2.calls) →
      ∃ c kvs first rest commit, v.Client = some c ∧
        c.GetCommits ⟨event.Owner, event.Repository, "", event.SHA⟩ = .ok (.obj kvs) ∧
        kvs.lookup "values" = some (.arr (first :: rest)) ∧
        Decode first = .ok commit ∧
        c.Get ⟨event.Owner, event.Repository⟩ = .error e ∧
        (GetCommitInfo Decode v event).1.SHA = commit.Hash) := by
  cases hc : v.Client with
  | none => simp [GetCommitInfo, hc] at herr
  | some c =>
    cases hq : c.GetCommits ⟨event.Owner, event.Repository, "", event.SHA⟩ with
    | error err => simp [GetCommitInfo, hc, hq]
    | ok response =>
      cases hm : response.asMap with
      | none => simp [GetCommitInfo, hc, hq, hm]
      | some kvs =>
        have hresp : response = .obj kvs := by
          cases response <;> simp [Value.asMap] at hm
          rw [hm]
        subst hresp
        cases hv : valuesOf kvs with
        | none => simp [GetCommitInfo, hc, hq, Value.asMap, hv]
        | some vs =>
          cases vs with
          | nil => simp [GetCommitInfo, hc, hq, Value.asMap, hv]
          | cons first rest =>
            have hl := valuesOf_eq_some kvs _ hv
            cases hd : Decode first with
            | error err => simp [GetCommitInfo, hc, hq, Value.asMap, hv, hd]
            | ok commit =>
              cases hr : c.Get ⟨event.Owner, event.Repository⟩ with
              | ok repo => simp [GetCommitInfo, hc, hq, Value.asMap, hv, hd, hr] at herr
              | error err =>
                have he : err = e := by
                  simpa [GetCommitInfo, hc, hq, Value.asMap, hv, hd, hr] using herr
                subst he
                constructor
                · intro hno
                  exact absurd (by simp [GetCommitInfo, hc, hq, Value.asMap, hv, hd, hr])
                    (hno ⟨event.Owner, event.Repository⟩)
                · intro _
                  exact ⟨c, kvs, first, rest, commit, rfl, hq, hl, hd, hr,
                    by simp [GetCommitInfo, hc, hq, Value.asMap, hv, hd, hr]⟩

/-- C12 (amended) on a client whose repository query fails after the first
entry decoded: the call was issued and the SHA is the decoded hash. -/
theorem C12_sha_on_error_witness :
    (GetCommitInfo sampleDecode repoDownVCS sampleEvent).2.result
        = .err ⟨"503 Service Unavailable"⟩ ∧
      (∃ o, Call.Get o ∈ (GetCommitInfo sampleDecode repoDownVCS sampleEvent).2.calls) ∧
      ∃ c kvs first rest commit, repoDownVCS.Client = some c ∧
        c.GetCommits ⟨"acme", "shop", "", "feature"⟩ = .ok (.obj kvs) ∧
        kvs.lookup "values" = some (.arr (first :: rest)) ∧
        sampleDecode first = .ok commit ∧
        c.Get ⟨"acme", "shop"⟩ = .error ⟨"503 Service Unavailable"⟩ ∧
        (GetCommitInfo sampleDecode repoDownVCS sampleEvent).1.SHA = commit.Hash :=
  ⟨by decide, ⟨⟨"acme", "shop"⟩, by decide⟩,
    (C12_sha_on_error sampleDecode repoDownVCS sampleEvent ⟨"503 Service Unavailable"⟩
      (by decide)).2 ⟨⟨"acme", "shop"⟩, by decide⟩⟩

/-! ## Status posting and the comment (`CreateStatus`) -/

/-- With a client, the answer shared by every status post of the run is the
answer to the request built at source lines 60-70. -/
theorem CreateStatus_post_answer (v : VCS) (c : Client) (event : Event) (pacopts : PacOpts)
    (so : StatusOpts) (r : Except GoError Unit) (hc : v.Client = some c)
    (hpost : ∀ cmo cso,
      Call.CreateCommitStatus cmo cso ∈ (CreateStatus v event pacopts so).calls →
      c.CreateCommitStatus cmo cso = r) :
    c.CreateCommitStatus (cmoOf event) (csoOf pacopts so) = r := by
  apply hpost
  rcases CreateStatus_calls v c event pacopts so hc with h | ⟨o, h⟩ <;> simp [h]

/-- With a client, a successful status post, the four gating conditions and a
pull-request number, the run ends with the comment post and returns its
error, if any. -/
theorem CreateStatus_gate_open (v : VCS) (c : Client) (event : Event) (pacopts : PacOpts)
    (so : StatusOpts) (prNumber : String) (hc : v.Client = some c)
    (hok : c.CreateCommitStatus (cmoOf event) (csoOf pacopts so) = .ok ())
    (hgate : (translate so).Conclusion ≠ "STOPPED" ∧ so.Status = "completed" ∧
      so.Text ≠ "" ∧ event.EventType = "pull_request")
    (hnum : getPullRequestNumber event.Event = .ok prNumber) :
    CreateStatus v event pacopts so =
      match c.AddComment (commentOf event pacopts so prNumber) with
      | .error err => ⟨.err err, [.CreateCommitStatus (cmoOf event) (csoOf pacopts so),
          .AddComment (commentOf event pacopts so prNumber)]⟩
      | .ok _ => ⟨.ok (), [.CreateCommitStatus (cmoOf event) (csoOf pacopts so),
          .AddComment (commentOf event pacopts so prNumber)]⟩ := by
  simp only [cmoOf, csoOf, detailsURLOf] at hok
  simp only [CreateStatus, hc, hok, hnum, translate_Status, translate_Text, cmoOf, csoOf,
    detailsURLOf, commentOf]
  rw [if_pos hgate]

/-- With a client, a successful status post, the four gating conditions and no
pull-request number, the run ends after the status post with the error of
`getPullRequestNumber`. -/
theorem CreateStatus_no_number (v : VCS) (c : Client) (event : Event) (pacopts : PacOpts)
    (so : StatusOpts) (e : GoError) (hc : v.Client = some c)
    (hok : c.CreateCommitStatus (cmoOf event) (csoOf pacopts so) = .ok ())
    (hgate : (translate so).Conclusion ≠ "STOPPED" ∧ so.Status = "completed" ∧
      so.Text ≠ "" ∧ event.EventType = "pull_request")
    (hnum : getPullRequestNumber event.Event = .err e) :
    CreateStatus v event pacopts so =
      ⟨.err e, [.CreateCommitStatus (cmoOf event) (csoOf pacopts so)]⟩ := by
  simp only [cmoOf, csoOf, detailsURLOf] at hok
  simp only [CreateStatus, hc, hok, hnum, translate_Status, translate_Text, cmoOf, csoOf,
    detailsURLOf]
  rw [if_pos hgate]

/-- C13: on an adapter with no client (`Client` is nil), `CreateStatus` returns
an error and issues no remote call, neither a status post nor a comment
post. -/
theorem C13_no_client (v : VCS) (event : Event) (pacopts : PacOpts) (so : StatusOpts)
    (hn : v.Client = none) :
    (∃ e, (CreateStatus v event pacopts so).result = .err e) ∧
    (CreateStatus v event pacopts so).calls = [] := by
  simp [CreateStatus, hn]

/-- C13 on an adapter on which `SetClient` was never called. -/
theorem C13_no_client_witness :
    (∃ e, (CreateStatus freshVCS sampleEvent samplePacOpts (sampleStatus "success")).result
      = .err e) ∧
    (CreateStatus freshVCS sampleEvent samplePacOpts (sampleStatus "success")).calls = [] :=
  C13_no_client freshVCS sampleEvent samplePacOpts (sampleStatus "success") rfl

/-- C14: on an adapter with a client, when the status post fails with an error,
`CreateStatus` returns that same error, the status post is its only remote
call (one attempt), and no comment is posted, whatever the gating
conditions. -/
theorem C14_status_failure (v : VCS) (c : Client) (event : Event) (pacopts : PacOpts)
    (so : StatusOpts) (e : GoError) (hc : v.Client = some c)
    (hfail : ∀ cmo cso,
      Call.CreateCommitStatus cmo cso ∈ (CreateStatus v event pacopts so).calls →
      c.CreateCommitStatus cmo cso = .error e) :
    (CreateStatus v event pacopts so).result = .err e ∧
    (postedStatuses (CreateStatus v event pacopts so).calls).length = 1 ∧
    postedComments (CreateStatus v event pacopts so).calls = [] ∧
    (CreateStatus v event pacopts so).calls
      = [.CreateCommitStatus (cmoOf event) (csoOf pacopts so)] := by
  have hbad := CreateStatus_post_answer v c event pacopts so _ hc hfail
  have hrun : CreateStatus v event pacopts so =
      ⟨.err e, [.CreateCommitStatus (cmoOf event) (csoOf pacopts so)]⟩ := by
    simp only [cmoOf, csoOf, detailsURLOf] at hbad
    simp only [CreateStatus, hc, hbad, cmoOf, csoOf, detailsURLOf]
  rw [hrun]
  simp [postedStatuses, postedComments]

/-- C14 on a pull-request event whose report passes all four gating
conditions: the status error is returned and no comment is posted. -/
theorem C14_status_failure_witness :
    ((translate (sampleStatus "success")).Conclusion ≠ "STOPPED" ∧
      (sampleStatus "success").Status = "completed" ∧
      (sampleStatus "success").Text ≠ "" ∧ sampleEvent.EventType = "pull_request") ∧
    (CreateStatus statusDownVCS sampleEvent samplePacOpts (sampleStatus "success")).result
      = .err ⟨"500 Internal Server Error"⟩ ∧
    (postedStatuses
      (CreateStatus statusDownVCS sampleEvent samplePacOpts (sampleStatus "success")).calls).length
      = 1 ∧
    postedComments
      (CreateStatus statusDownVCS sampleEvent samplePacOpts (sampleStatus "success")).calls
      = [] ∧
    (CreateStatus statusDownVCS sampleEvent samplePacOpts (sampleStatus "success")).calls
      = [.CreateCommitStatus (cmoOf sampleEvent) (csoOf samplePacOpts (sampleStatus "success"))] :=
  ⟨by decide,
    C14_status_failure statusDownVCS
      (scriptedClient (.error ⟨"500 Internal Server Error"⟩) (.ok ()) (.ok sampleCommits)
        (.ok ⟨⟨"main"⟩⟩))
      sampleEvent samplePacOpts (sampleStatus "success") ⟨"500 Internal Server Error"⟩ rfl
      (fun _ _ _ => rfl)⟩

/-- The payloads `getPullRequestNumber` guards: on an adapter with a client,
after a successful status post and with all four gating conditions, a
payload of another type than `*types.PullRequestEvent`, or a non-nil one
whose id is zero, makes `CreateStatus` return an error with exactly one
status posted and no comment posted; with a non-nil payload of non-zero id
whose comment post fails, the comment's error is returned. -/
theorem CreateStatus_comment_errors (v : VCS) (c : Client) (event : Event) (pacopts : PacOpts)
    (so : StatusOpts) (hc : v.Client = some c)
    (hpost : ∀ cmo cso,
      Call.CreateCommitStatus cmo cso ∈ (CreateStatus v event pacopts so).calls →
      c.CreateCommitStatus cmo cso = .ok ())
    (hgate : (translate so).Conclusion ≠ "STOPPED" ∧ so.Status = "completed" ∧
      so.Text ≠ "" ∧ event.EventType = "pull_request") :
    ((event.Event = .other ∨
        ∃ pr, event.Event = .pullRequestEvent (some pr) ∧ pr.PullRequest.ID = 0) →
      (∃ e, (CreateStatus v event pacopts so).result = .err e) ∧
      (postedStatuses (CreateStatus v event pacopts so).calls).length = 1 ∧
      postedComments (CreateStatus v event pacopts so).calls = []) ∧
    (∀ pr e, event.Event = .pullRequestEvent (some pr) → pr.PullRequest.ID ≠ 0 →
      (∀ o, Call.AddComment o ∈ (CreateStatus v event pacopts so).calls →
        c.AddComment o = .error e) →
      (CreateStatus v event pacopts so).result = .err e) := by
  have hok := CreateStatus_post_answer v c event pacopts so _ hc hpost
  constructor
  · intro hbad
    have hnum : ∃ e, getPullRequestNumber event.Event = .err e := by
      rcases hbad with h | ⟨pr, h, hz⟩
      · exact ⟨Errorf "cannot convert event to PullRequestEvent",
          by simp [getPullRequestNumber, h]⟩
      · exact ⟨Errorf "could not detect pull request ID",
          by simp [getPullRequestNumber, h, hz]⟩
    obtain ⟨e, hnum⟩ := hnum
    rw [CreateStatus_no_number v c event pacopts so e hc hok hgate hnum]
    exact ⟨⟨e, rfl⟩, by simp [postedStatuses], by simp [postedComments]⟩
  · intro pr e hpr hid hfail
    have hnum : getPullRequestNumber event.Event = .ok (SprintfD pr.PullRequest.ID) := by
      simp [getPullRequestNumber, hpr, hid]
    have hrun := CreateStatus_gate_open v c event pacopts so _ hc hok hgate hnum
    have hmem : Call.AddComment (commentOf event pacopts so (SprintfD pr.PullRequest.ID)) ∈
        (CreateStatus v event pacopts so).calls := by
      rw [hrun]
      split <;> simp
    have hcomment := hfail _ hmem
    rw [hrun, hcomment]

/-- The guarded payloads on concrete inputs: a payload that is not a
pull-request event (an error is returned, one status was posted and no
comment) and a pull-request payload with id 7 whose comment post fails (the
comment's error is returned). -/
theorem CreateStatus_comment_errors_example :
    ((∃ e, (CreateStatus sampleVCS pushPayloadEvent samplePacOpts
        (sampleStatus "success")).result = .err e) ∧
      (postedStatuses (CreateStatus sampleVCS pushPayloadEvent samplePacOpts
        (sampleStatus "success")).calls).length = 1 ∧
      postedComments (CreateStatus sampleVCS pushPayloadEvent samplePacOpts
        (sampleStatus "success")).calls = []) ∧
    (CreateStatus commentDownVCS sampleEvent samplePacOpts (sampleStatus "success")).result
      = .err ⟨"403 Forbidden"⟩ :=
  ⟨(CreateStatus_comment_errors sampleVCS sampleClient pushPayloadEvent samplePacOpts
      (sampleStatus "success") rfl (fun _ _ _ => rfl) (by decide)).1 (Or.inl rfl),
    (CreateStatus_comment_errors commentDownVCS
      (scriptedClient (.ok ()) (.error ⟨"403 Forbidden"⟩) (.ok sampleCommits)
        (.ok ⟨⟨"main"⟩⟩))
      sampleEvent samplePacOpts (sampleStatus "success") rfl (fun _ _ _ => rfl)
      (by decide)).2 ⟨⟨7⟩⟩ ⟨"403 Forbidden"⟩ rfl (by decide) (fun _ _ => rfl)⟩

/-- C15 fails on the code: with a client, a successful status post and all four
gating conditions, a payload that is a nil `*types.PullRequestEvent` (a
pull-request event whose id is absent) passes the type assertion of source
line 217 and is dereferenced at line 221, so `CreateStatus` crashes instead
of returning an error; the status was posted once and no comment is
posted. -/
theorem C15_nil_payload_crash :
    sampleVCS.Client = some sampleClient ∧
    sampleClient.CreateCommitStatus (cmoOf nilPayloadEvent)
      (csoOf samplePacOpts (sampleStatus "success")) = .ok () ∧
    ((translate (sampleStatus "success")).Conclusion ≠ "STOPPED" ∧
      (sampleStatus "success").Status = "completed" ∧
      (sampleStatus "success").Text ≠ "" ∧ nilPayloadEvent.EventType = "pull_request") ∧
    nilPayloadEvent.Event = .pullRequestEvent none ∧
    getPullRequestNumber nilPayloadEvent.Event = .nilDeref ∧
    (CreateStatus sampleVCS nilPayloadEvent samplePacOpts (sampleStatus "success")).result
      = .nilDeref ∧
    (∀ e, (CreateStatus sampleVCS nilPayloadEvent samplePacOpts
      (sampleStatus "success")).result ≠ .err e) ∧
    (postedStatuses (CreateStatus sampleVCS nilPayloadEvent samplePacOpts
      (sampleStatus "success")).calls).length = 1 ∧
    postedComments (CreateStatus sampleVCS nilPayloadEvent samplePacOpts
      (sampleStatus "success")).calls = [] := by
  have hcrash : (CreateStatus sampleVCS nilPayloadEvent samplePacOpts
      (sampleStatus "success")).result = .nilDeref := by decide
  refine ⟨rfl, rfl, by decide, rfl, by decide, hcrash, ?_, by decide, by decide⟩
  intro e h
  rw [hcrash] at h
  cases h

/-- C18: on an adapter with a client, the first remote call of `CreateStatus` is
the status post, the only one of the run, addressed to the event's owner,
repository and SHA, with Key the application name and Url the report's
DetailsURL when that is non-empty and the configured VCSAPIURL otherwise. -/
theorem C18_status_request (v : VCS) (c : Client) (event : Event) (pacopts : PacOpts)
    (so : StatusOpts) (hc : v.Client = some c) :
    ∃ cmo cso rest,
      (CreateStatus v event pacopts so).calls = .CreateCommitStatus cmo cso :: rest ∧
      postedStatuses (CreateStatus v event pacopts so).calls = [cso] ∧
      (so.DetailsURL ≠ "" → cso.Url = so.DetailsURL) ∧
      (so.DetailsURL = "" → cso.Url = pacopts.VCSAPIURL) ∧
      cso.Key = pacopts.ApplicationName ∧
      cmo.Owner = event.Owner ∧ cmo.RepoSlug = event.Repository ∧
      cmo.Revision = event.SHA := by
  have hurl1 : so.DetailsURL ≠ "" → (csoOf pacopts so).Url = so.DetailsURL := by
    intro h
    simp [csoOf, detailsURLOf, translate_DetailsURL, h]
  have hurl2 : so.DetailsURL = "" → (csoOf pacopts so).Url = pacopts.VCSAPIURL := by
    intro h
    simp [csoOf, detailsURLOf, translate_DetailsURL, h]
  have hposted := postedStatuses_CreateStatus v c event pacopts so hc
  rcases CreateStatus_calls v c event pacopts so hc with h | ⟨o, h⟩
  · exact ⟨cmoOf event, csoOf pacopts so, [], h, hposted, hurl1, hurl2, rfl, rfl, rfl, rfl⟩
  · exact ⟨cmoOf event, csoOf pacopts so, [.AddComment o], h, hposted, hurl1, hurl2, rfl, rfl,
      rfl, rfl⟩

/-- C18 on a report with a details link and on one without. -/
theorem C18_status_request_witness :
    (∃ cmo cso rest,
      (CreateStatus sampleVCS sampleEvent samplePacOpts linkedStatus).calls
        = .CreateCommitStatus cmo cso :: rest ∧
      postedStatuses (CreateStatus sampleVCS sampleEvent samplePacOpts linkedStatus).calls
        = [cso] ∧
      (linkedStatus.DetailsURL ≠ "" → cso.Url = linkedStatus.DetailsURL) ∧
      (linkedStatus.DetailsURL = "" → cso.Url = samplePacOpts.VCSAPIURL) ∧
      cso.Key = samplePacOpts.ApplicationName ∧
      cmo.Owner = sampleEvent.Owner ∧ cmo.RepoSlug = sampleEvent.Repository ∧
      cmo.Revision = sampleEvent.SHA) ∧
    postedStatuses (CreateStatus sampleVCS sampleEvent samplePacOpts linkedStatus).calls
      = [⟨"Pipelines as Code", "https://console.example/run/42", "INPROGRESS",
          "⚡ CI has started"⟩] ∧
    postedStatuses
        (CreateStatus sampleVCS sampleEvent samplePacOpts (sampleStatus "pending")).calls
      = [⟨"Pipelines as Code", "https://api.bitbucket.org/2.0", "INPROGRESS",
          "⚡ CI has started"⟩] :=
  ⟨C18_status_request sampleVCS sampleClient sampleEvent samplePacOpts linkedStatus rfl,
    by decide, by decide⟩

/-! ## Requests and skipped entries of the bundle (`GetTektonDir`) -/

/-- Every call the loop adds is a blob fetch at the event's head branch for the
path of a YAML candidate of the listing. -/
theorem concatLoop_calls (v : VCS) (runevent : Event) (files : List RepositoryFile) :
    ∀ (acc : String) (log : List Call), ∃ paths : List String,
      (concatLoop v runevent files acc log).calls
        = log ++ paths.map (fun p => Call.GetFileBlob (headBlobOptions runevent p)) ∧
      ∀ p ∈ paths, ∃ f ∈ files, isYAMLCandidate f = true ∧ p = f.Path := by
  induction files with
  | nil => intro acc log; exact ⟨[], by simp [concatLoop], by simp⟩
  | cons f rest ih =>
    intro acc log
    by_cases hy : isYAMLCandidate f = true
    · have hy2 := hy
      simp only [isYAMLCandidate] at hy2
      cases hc : v.Client with
      | none => exact ⟨[], by simp [concatLoop, hy2, getBlob, hc], by simp⟩
      | some c =>
        cases hb : c.GetFileBlob
            ⟨runevent.Owner, runevent.Repository, runevent.HeadBranch, f.Path⟩ with
        | error e =>
          refine ⟨[f.Path], by simp [concatLoop, hy2, getBlob, hc, hb, headBlobOptions], ?_⟩
          intro p hp
          exact ⟨f, List.mem_cons_self _ _, hy, List.mem_singleton.mp hp⟩
        | ok blob =>
          simp only [concatLoop, hy2, if_true, getBlob, hc, hb]
          obtain ⟨paths, hcalls, hpaths⟩ := ih
            ((if acc ≠ "" ∧ ¬ HasPrefix blob.String "---" then acc ++ "---" else acc) ++
              ("\n" ++ blob.String ++ "\n"))
            (log ++ [.GetFileBlob
              ⟨runevent.Owner, runevent.Repository, runevent.HeadBranch, f.Path⟩])
          refine ⟨f.Path :: paths, ?_, ?_⟩
          · rw [hcalls]
            simp [headBlobOptions]
          · intro p hp
            rcases List.mem_cons.mp hp with rfl | hmem
            · exact ⟨f, List.mem_cons_self _ _, hy, rfl⟩
            · obtain ⟨g, hg, hgy, hgp⟩ := hpaths p hmem
              exact ⟨g, List.mem_cons_of_mem _ hg, hgy, hgp⟩
    · have hy2 := hy
      simp only [isYAMLCandidate] at hy2
      simp only [concatLoop, hy2]
      obtain ⟨paths, hcalls, hpaths⟩ := ih acc log
      refine ⟨paths, hcalls, ?_⟩
      intro p hp
      obtain ⟨g, hg, hgy, hgp⟩ := hpaths p hp
      exact ⟨g, List.mem_cons_of_mem _ hg, hgy, hgp⟩

/-- The loop over a listing is the loop over its YAML candidates. -/
theorem concatLoop_filter (v : VCS) (runevent : Event) (files : List RepositoryFile) :
    ∀ (acc : String) (log : List Call),
      concatLoop v runevent files acc log
        = concatLoop v runevent (files.filter isYAMLCandidate) acc log := by
  induction files with
  | nil => intro acc log; rfl
  | cons f rest ih =>
    intro acc log
    by_cases hy : isYAMLCandidate f = true
    · have hy2 := hy
      simp only [isYAMLCandidate] at hy2
      rw [List.filter_cons_of_pos hy]
      simp only [concatLoop, hy2, if_true]
      split
      · rfl
      · rfl
      · exact ih _ _
    · have hy2 := hy
      simp only [isYAMLCandidate] at hy2
      rw [List.filter_cons_of_neg hy]
      simp only [concatLoop, hy2]
      exact ih _ _

/-- The loop depends on the client only through the blobs of the YAML
candidates of the listing. -/
theorem concatLoop_congr (v v2 : VCS) (c c2 : Client) (runevent : Event)
    (hc : v.Client = some c) (hc2 : v2.Client = some c2) (files : List RepositoryFile) :
    ∀ (acc : String) (log : List Call),
    (∀ f ∈ files, isYAMLCandidate f = true →
      c.GetFileBlob (headBlobOptions runevent f.Path)
        = c2.GetFileBlob (headBlobOptions runevent f.Path)) →
    concatLoop v runevent files acc log = concatLoop v2 runevent files acc log := by
  induction files with
  | nil => intro acc log _; rfl
  | cons f rest ih =>
    intro acc log hagree
    have hrest := fun acc log =>
      ih acc log (fun g hg => hagree g (List.mem_cons_of_mem _ hg))
    by_cases hy : isYAMLCandidate f = true
    · have hy2 := hy
      simp only [isYAMLCandidate] at hy2
      have hb := hagree f (List.mem_cons_self _ _) hy
      simp only [headBlobOptions] at hb
      simp only [concatLoop, hy2, if_true, getBlob, hc, hc2, hb]
      cases c2.GetFileBlob
          ⟨runevent.Owner, runevent.Repository, runevent.HeadBranch, f.Path⟩ with
      | error e => rfl
      | ok blob => exact hrest _ _
    · have hy2 := hy
      simp only [isYAMLCandidate] at hy2
      simp only [concatLoop, hy2]
      exact hrest _ _

/-- C16: on an adapter with a client, the remote calls of `GetTektonDir` are the
directory listing at reference `event.SHA` followed only by blob fetches at
reference `event.HeadBranch`, all for the event's owner and repository. -/
theorem C16_listing_and_fetch_refs (v : VCS) (c : Client) (event : Event) (path : String)
    (hc : v.Client = some c) :
    ∃ paths : List String,
      (GetTektonDir v event path).calls
        = .ListFiles ⟨event.Owner, event.Repository, event.SHA, path⟩ ::
          paths.map fun p =>
            Call.GetFileBlob ⟨event.Owner, event.Repository, event.HeadBranch, p⟩ := by
  cases hl : c.ListFiles ⟨event.Owner, event.Repository, event.SHA, path⟩ with
  | error e => exact ⟨[], by simp [GetTektonDir, hc, hl]⟩
  | ok files =>
    obtain ⟨paths, hcalls, _⟩ := concatLoop_calls v event files "" []
    refine ⟨paths, ?_⟩
    rw [GetTektonDir_listed v c event path files hc hl, concatAllYamlFiles, hcalls]
    simp [headBlobOptions]

/-- C16 on an event whose SHA is a commit hash and whose head branch is
`feature`: the listing is at the hash, the fetches at the branch. -/
theorem C16_listing_and_fetch_refs_witness :
    (∃ paths : List String,
      (GetTektonDir sampleVCS resolvedEvent ".tekton").calls
        = .ListFiles ⟨"acme", "shop", "0a1b2c3d", ".tekton"⟩ ::
          paths.map fun p => Call.GetFileBlob ⟨"acme", "shop", "feature", p⟩) ∧
    (GetTektonDir sampleVCS resolvedEvent ".tekton").calls
      = [.ListFiles ⟨"acme", "shop", "0a1b2c3d", ".tekton"⟩,
          .GetFileBlob ⟨"acme", "shop", "feature", "a.yaml"⟩,
          .GetFileBlob ⟨"acme", "shop", "feature", "c.yml"⟩] :=
  ⟨C16_listing_and_fetch_refs sampleVCS sampleClient resolvedEvent ".tekton" rfl, by decide⟩

/-- C17: entries whose path ends neither in `.yaml` nor in `.yml` are skipped:
the result and the calls of `GetTektonDir` on a listing are those on the
listing without such entries, whatever the client would answer for them,
and every blob fetched is the path of an entry ending in `.yaml` or `.yml`. -/
theorem C17_non_yaml_skipped (v v2 : VCS) (c c2 : Client) (event : Event) (path : String)
    (files : List RepositoryFile) (hc : v.Client = some c) (hc2 : v2.Client = some c2)
    (hl : c.ListFiles ⟨event.Owner, event.Repository, event.SHA, path⟩ = .ok files)
    (hl2 : c2.ListFiles ⟨event.Owner, event.Repository, event.SHA, path⟩
      = .ok (files.filter isYAMLCandidate))
    (hagree : ∀ f ∈ files, isYAMLCandidate f = true →
      c.GetFileBlob ⟨event.Owner, event.Repository, event.HeadBranch, f.Path⟩
        = c2.GetFileBlob ⟨event.Owner, event.Repository, event.HeadBranch, f.Path⟩) :
    (GetTektonDir v event path).result = (GetTektonDir v2 event path).result ∧
    (GetTektonDir v event path).calls = (GetTektonDir v2 event path).calls ∧
    (∀ o, Call.GetFileBlob o ∈ (GetTektonDir v event path).calls →
      ∃ f ∈ files, (HasSuffix f.Path ".yaml" = true ∨ HasSuffix f.Path ".yml" = true) ∧
        o.Path = f.Path) := by
  have hloop : concatLoop v event files "" []
      = concatLoop v2 event (files.filter isYAMLCandidate) "" [] := by
    rw [concatLoop_congr v v2 c c2 event hc hc2 files "" [] hagree]
    exact concatLoop_filter v2 event files "" []
  rw [GetTektonDir_listed v c event path files hc hl,
    GetTektonDir_listed v2 c2 event path _ hc2 hl2]
  simp only [concatAllYamlFiles, hloop, true_and]
  intro o ho
  obtain ⟨paths, hcalls, hpaths⟩ := concatLoop_calls v event files "" []
  rw [← hloop, hcalls] at ho
  simp only [List.nil_append, List.mem_cons, List.mem_map, Call.GetFileBlob.injEq,
    false_or, reduceCtorEq] at ho
  obtain ⟨p, hp, hpo⟩ := ho
  obtain ⟨f, hf, hfy, hfp⟩ := hpaths p hp
  refine ⟨f, hf, ?_, ?_⟩
  · simpa [isYAMLCandidate] using hfy
  · rw [← hpo, ← hfp]
    rfl

/-- C17 on a listing with `b.txt` and `a.YAML` (whose blob is not served)
between two YAML candidates: the outcome is that of the two candidates
alone, with no error. -/
theorem C17_non_yaml_skipped_witness :
    ((GetTektonDir mixedVCS sampleEvent ".tekton").result
        = (GetTektonDir filteredVCS sampleEvent ".tekton").result ∧
      (GetTektonDir mixedVCS sampleEvent ".tekton").calls
        = (GetTektonDir filteredVCS sampleEvent ".tekton").calls ∧
      (∀ o, Call.GetFileBlob o ∈ (GetTektonDir mixedVCS sampleEvent ".tekton").calls →
        ∃ f ∈ [(⟨"a.yaml"⟩ : RepositoryFile), ⟨"b.txt"⟩, ⟨"a.YAML"⟩, ⟨"c.yml"⟩],
          (HasSuffix f.Path ".yaml" = true ∨ HasSuffix f.Path ".yml" = true) ∧
            o.Path = f.Path)) ∧
    (GetTektonDir mixedVCS sampleEvent ".tekton").result = .ok "\nx:1\n---\ny:2\n" ∧
    sampleBlobs "a.YAML" = none :=
  ⟨C17_non_yaml_skipped mixedVCS filteredVCS
      (fakeClient [⟨"a.yaml"⟩, ⟨"b.txt"⟩, ⟨"a.YAML"⟩, ⟨"c.yml"⟩] sampleBlobs)
      (fakeClient [⟨"a.yaml"⟩, ⟨"c.yml"⟩] sampleBlobs) sampleEvent ".tekton"
      [⟨"a.yaml"⟩, ⟨"b.txt"⟩, ⟨"a.YAML"⟩, ⟨"c.yml"⟩] rfl rfl rfl rfl (fun _ _ _ => rfl),
    by decide, by decide⟩

/-! ## Failures (`GetTektonDir` on a failing fetch, adapters with no client) -/

/-- A listing with a YAML candidate that is not served splits at the first such
candidate. -/
theorem first_failure_split (c : Client) (runevent : Event) (files : List RepositoryFile)
    (hbad : ∃ g ∈ files, isYAMLCandidate g = true ∧
      ∃ e, c.GetFileBlob (headBlobOptions runevent g.Path) = .error e) :
    ∃ pre f post e, files = pre ++ f :: post ∧
      (∀ g ∈ pre, isYAMLCandidate g = true →
        ∃ blob, c.GetFileBlob (headBlobOptions runevent g.Path) = .ok blob) ∧
      isYAMLCandidate f = true ∧
      c.GetFileBlob (headBlobOptions runevent f.Path) = .error e := by
  induction files with
  | nil =>
    obtain ⟨g, hg, _⟩ := hbad
    cases hg
  | cons h rest ih =>
    by_cases hserved : isYAMLCandidate h = true →
        ∃ blob, c.GetFileBlob (headBlobOptions runevent h.Path) = .ok blob
    · have hrest : ∃ g ∈ rest, isYAMLCandidate g = true ∧
          ∃ e, c.GetFileBlob (headBlobOptions runevent g.Path) = .error e := by
        obtain ⟨g, hg, hgy, e, hge⟩ := hbad
        rcases List.mem_cons.mp hg with rfl | hmem
        · obtain ⟨blob, hblob⟩ := hserved hgy
          rw [hblob] at hge
          cases hge
        · exact ⟨g, hmem, hgy, e, hge⟩
      obtain ⟨pre, f, post, e, hsplit, hpre, hfy, hfe⟩ := ih hrest
      refine ⟨h :: pre, f, post, e, by simp [hsplit], ?_, hfy, hfe⟩
      intro g hg hgy
      rcases List.mem_cons.mp hg with rfl | hmem
      · exact hserved hgy
      · exact hpre g hmem hgy
    · have hy : isYAMLCandidate h = true := by
        by_contra hn
        exact hserved (fun hy => absurd hy hn)
      cases hb : c.GetFileBlob (headBlobOptions runevent h.Path) with
      | ok blob => exact absurd (fun _ => ⟨blob, hb⟩) hserved
      | error e => exact ⟨[], h, rest, e, rfl, by simp, hy, hb⟩

/-- C19 fails on the code: with no client (`Client` is nil) `GetTektonDir`,
`GetFileInsideRepo` and `GetCommitInfo` dereference the nil client and
crash instead of returning an error, while `CreateStatus` checks for nil
and returns an error; none of them issues a remote call. -/
theorem C19_nil_client_crash :
    freshVCS.Client = none ∧
    (GetTektonDir freshVCS sampleEvent ".tekton").result = .nilDeref ∧
    (GetFileInsideRepo freshVCS sampleEvent "a.yaml" "").result = .nilDeref ∧
    (GetCommitInfo rejectDecode freshVCS sampleEvent).2.result = .nilDeref ∧
    (CreateStatus freshVCS sampleEvent samplePacOpts (sampleStatus "success")).result
      = .err ⟨"no token has been set, cannot set status"⟩ ∧
    (GetTektonDir freshVCS sampleEvent ".tekton").calls = [] ∧
    (GetFileInsideRepo freshVCS sampleEvent "a.yaml" "").calls = [] ∧
    (GetCommitInfo rejectDecode freshVCS sampleEvent).2.calls = [] :=
  ⟨rfl, by decide, by decide, by decide, by decide, by decide, by decide, by decide⟩

/-- C20: on an adapter with a client, when the listing succeeds and the fetch of
at least one entry ending in `.yaml` or `.yml` fails, `GetTektonDir` returns
the empty string (not the text accumulated so far) together with the
not-found error of the first such entry in listing order; its calls are the
listing, the fetches of the YAML entries before that entry and the fetch of
that entry, so nothing after it is fetched. -/
theorem C20_first_failure (v : VCS) (c : Client) (event : Event) (path : String)
    (files : List RepositoryFile) (hc : v.Client = some c)
    (hl : c.ListFiles ⟨event.Owner, event.Repository, event.SHA, path⟩ = .ok files)
    (hbad : ∃ g ∈ files,
      (HasSuffix g.Path ".yaml" = true ∨ HasSuffix g.Path ".yml" = true) ∧
      ∃ e, c.GetFileBlob ⟨event.Owner, event.Repository, event.HeadBranch, g.Path⟩
        = .error e) :
    ∃ pre f post, files = pre ++ f :: post ∧
      (∀ g ∈ pre, isYAMLCandidate g = true → ∃ blob,
        c.GetFileBlob ⟨event.Owner, event.Repository, event.HeadBranch, g.Path⟩
          = .ok blob) ∧
      isYAMLCandidate f = true ∧
      (∃ e, c.GetFileBlob ⟨event.Owner, event.Repository, event.HeadBranch, f.Path⟩
        = .error e) ∧
      (GetTektonDir v event path).returned = some "" ∧
      (GetTektonDir v event path).result
        = .err ⟨notFoundMessage f.Path event.HeadBranch event.Owner event.Repository⟩ ∧
      (GetTektonDir v event path).calls
        = .ListFiles ⟨event.Owner, event.Repository, event.SHA, path⟩ ::
          (((pre.filter isYAMLCandidate).map fun g =>
              Call.GetFileBlob ⟨event.Owner, event.Repository, event.HeadBranch, g.Path⟩) ++
            [.GetFileBlob ⟨event.Owner, event.Repository, event.HeadBranch, f.Path⟩]) := by
  have hbad2 : ∃ g ∈ files, isYAMLCandidate g = true ∧
      ∃ e, c.GetFileBlob (headBlobOptions event g.Path) = .error e := by
    obtain ⟨g, hg, hgy, e, hge⟩ := hbad
    exact ⟨g, hg, by simpa [isYAMLCandidate] using hgy, e, hge⟩
  obtain ⟨pre, f, post, e, hsplit, hpre, hfy, hfe⟩ := first_failure_split c event files hbad2
  refine ⟨pre, f, post, hsplit, hpre, hfy, ⟨e, hfe⟩, ?_, ?_, ?_⟩
  · rw [GetTektonDir_listed v c event path files hc hl, concatAllYamlFiles, hsplit,
      concatLoop_first_failure v c event hc pre post f e "" [] hpre hfy hfe]
  · rw [GetTektonDir_listed v c event path files hc hl, concatAllYamlFiles, hsplit,
      concatLoop_first_failure v c event hc pre post f e "" [] hpre hfy hfe]
  · rw [GetTektonDir_listed v c event path files hc hl, concatAllYamlFiles, hsplit,
      concatLoop_first_failure v c event hc pre post f e "" [] hpre hfy hfe]
    simp [headBlobOptions]

/-- C20 on the listing `a.yaml`, `gone.yaml`, `c.yml` where `gone.yaml` is not
served: the empty string (not the text `\nx:1\n` accumulated from `a.yaml`)
and the not-found error of `gone.yaml` are returned and `c.yml` is not
fetched. -/
theorem C20_first_failure_witness :
    (∃ pre f post, [(⟨"a.yaml"⟩ : RepositoryFile), ⟨"gone.yaml"⟩, ⟨"c.yml"⟩] = pre ++ f :: post ∧
      (∀ g ∈ pre, isYAMLCandidate g = true → ∃ blob,
        (fakeClient [⟨"a.yaml"⟩, ⟨"gone.yaml"⟩, ⟨"c.yml"⟩] sampleBlobs).GetFileBlob
          ⟨"acme", "shop", "feature", g.Path⟩ = .ok blob) ∧
      isYAMLCandidate f = true ∧
      (∃ e, (fakeClient [⟨"a.yaml"⟩, ⟨"gone.yaml"⟩, ⟨"c.yml"⟩] sampleBlobs).GetFileBlob
        ⟨"acme", "shop", "feature", f.Path⟩ = .error e) ∧
      (GetTektonDir brokenVCS sampleEvent ".tekton").returned = some "" ∧
      (GetTektonDir brokenVCS sampleEvent ".tekton").result
        = .err ⟨notFoundMessage f.Path "feature" "acme" "shop"⟩ ∧
      (GetTektonDir brokenVCS sampleEvent ".tekton").calls
        = .ListFiles ⟨"acme", "shop", "feature", ".tekton"⟩ ::
          (((pre.filter isYAMLCandidate).map fun g =>
              Call.GetFileBlob ⟨"acme", "shop", "feature", g.Path⟩) ++
            [.GetFileBlob ⟨"acme", "shop", "feature", f.Path⟩])) ∧
    (concatAllYamlFiles brokenVCS [⟨"a.yaml"⟩] sampleEvent).returned = some "\nx:1\n" ∧
    (GetTektonDir brokenVCS sampleEvent ".tekton").returned = some "" ∧
    (GetTektonDir brokenVCS sampleEvent ".tekton").result
      = .err ⟨"cannot find gone.yaml on branch feature in repo acme/shop"⟩ ∧
    (GetTektonDir brokenVCS sampleEvent ".tekton").calls
      = [.ListFiles ⟨"acme", "shop", "feature", ".tekton"⟩,
          .GetFileBlob ⟨"acme", "shop", "feature", "a.yaml"⟩,
          .GetFileBlob ⟨"acme", "shop", "feature", "gone.yaml"⟩] :=
  ⟨C20_first_failure brokenVCS (fakeClient [⟨"a.yaml"⟩, ⟨"gone.yaml"⟩, ⟨"c.yml"⟩] sampleBlobs)
      sampleEvent ".tekton" [⟨"a.yaml"⟩, ⟨"gone.yaml"⟩, ⟨"c.yml"⟩] rfl rfl
      ⟨⟨"gone.yaml"⟩, by simp, Or.inl (by decide), ⟨"404 Not Found"⟩, rfl⟩,
    by decide, by decide, by decide, by decide⟩

end Bitbucketcloud
